import Mathlib

/-!
Shallow embedding of the variant-notation parser/serializer of
bcgsc/pori_graphkb_parser (TypeScript sources: src/constants.ts, src/position.ts,
src/continuous.ts, src/variant.ts = src/unnamed/part_010, src/error.ts).

Conventions of the embedding:
* JavaScript dynamic values appearing in position fields are modelled by `JVal`
  (undefined / null / integer / string).  The JS distinction between a field
  holding `undefined`, holding `null` and holding a value is modelled by `JOpt`.
* Thrown `ParsingError` / `InputValidationError` exceptions are modelled by
  `Except ErrInfo`; `ErrInfo.isParsing` is `true` for `ParsingError` and `false`
  for `InputValidationError`.  `ErrInfo.violatedAttr` models
  `error.content.violatedAttr`; `subAttr` records the `violatedAttr` of a nested
  (wrapped) error, as produced when an `InputValidationError` is re-thrown as
  `new ParsingError(err)` or when `parseMultiFeature` wraps a breakpoint error
  with `subParserError`.  Interpolated values inside messages are omitted where
  they are irrelevant to the spec claims.
* `Number(x)` and `parseInt(x, 10)` are modelled for the integer-literal strings
  that actually occur in this code base (`jsNumber`, `parseIntChars`); `NaN` is
  modelled by `none`.
* Because identifiers such as `prefix` are not usable in this file, the source
  field/function names `prefix`, `getPrefix`, `notationType`,
  `NOTATION_TO_TYPES`, `TYPES_TO_NOTATION` and `createVariantNotation` are
  rendered as `pfx`, `getPfx`, `noteType`, `OP_TO_TYPES`, `TYPES_TO_OP` and
  `createVariant`.  Everything else keeps its source name.
* All string processing is done on `List Char` (`String.data`) with structural
  recursion so that every definition evaluates inside the kernel.
-/

namespace GkbParser

/-- Model of a dynamically typed JavaScript value as stored in position fields:
`undefined`, `null`, an integer, or a string. -/
inductive JVal where
  | undef : JVal
  | null : JVal
  | int : Int → JVal
  | str : String → JVal
deriving DecidableEq, Repr

/-- Model of a JS record field that can be absent (`undefined`), explicit
`null`, or hold a value of type `α`. -/
inductive JOpt (α : Type) where
  | undef : JOpt α
  | null : JOpt α
  | val : α → JOpt α
deriving DecidableEq, Repr

/-- Model of the payload of a thrown `ParsingError` (`isParsing = true`) or
`InputValidationError` (`isParsing = false`), see src/error.ts. The
`content.violatedAttr` field is `violatedAttr`; `subAttr` keeps the
`violatedAttr` of a wrapped inner error. -/
structure ErrInfo where
  isParsing : Bool
  message : String
  violatedAttr : Option String
  subAttr : Option String
deriving DecidableEq, Repr

/-- Build a `ParsingError` payload with a `violatedAttr`. -/
def perrA (m : String) (a : String) : ErrInfo := ⟨true, m, some a, none⟩

/-- Build a `ParsingError` payload without a `violatedAttr`. -/
def perr (m : String) : ErrInfo := ⟨true, m, none, none⟩

/-- Build an `InputValidationError` payload with a `violatedAttr`. -/
def iverrA (m : String) (a : String) : ErrInfo := ⟨false, m, some a, none⟩

/-- Build an `InputValidationError` payload without a `violatedAttr`. -/
def iverr (m : String) : ErrInfo := ⟨false, m, none, none⟩

/-- Model of the catch block in `parsePosition`: an `InputValidationError` is
re-thrown as `new ParsingError(err)`, which keeps the message but moves the
original `violatedAttr` into the wrapped content. -/
def upgradeErr (e : ErrInfo) : ErrInfo :=
  if e.isParsing then e else ⟨true, e.message, none, e.violatedAttr⟩

/-- JS truthiness of a `JVal` (`undefined`, `null`, `0` and the empty string
are falsy). -/
def jsTruthy : JVal → Bool
  | .undef => false
  | .null => false
  | .int n => !(n == 0)
  | .str s => !(s == "")

/-- JS truthiness of a `JOpt String` field. -/
def jsTruthyStr : JOpt String → Bool
  | .undef => false
  | .null => false
  | .val s => !(s == "")

/-- JS truthiness of a `JOpt Int` field. -/
def jsTruthyInt : JOpt Int → Bool
  | .undef => false
  | .null => false
  | .val n => !(n == 0)

/-- JS truthiness of an `Option String` local variable (`undefined` or a
string). -/
def optTruthy : Option String → Bool
  | none => false
  | some s => !(s == "")

/-- Data-level lower-casing of a string (model of `toLowerCase` for ASCII). -/
def lowerStr (s : String) : String := ⟨s.data.map Char.toLower⟩

/-- Data-level upper-casing of a string (model of `toUpperCase` for ASCII). -/
def upperStr (s : String) : String := ⟨s.data.map Char.toUpper⟩

/-! ### Numeric helpers (models of `Number(...)`, `parseInt(..., 10)` and
number-to-string templates, restricted to integer literals). -/

/-- Split off the longest leading run of ASCII digits. -/
def takeDigits : List Char → List Char × List Char
  | [] => ([], [])
  | c :: cs =>
    if c.isDigit then
      let p := takeDigits cs
      (c :: p.1, p.2)
    else ([], c :: cs)

/-- Accumulator form used by `digitsToNat`. -/
def digitsToNatAux (acc : Nat) : List Char → Nat
  | [] => acc
  | c :: cs => digitsToNatAux (acc * 10 + (c.toNat - 48)) cs

/-- Numeric value of a list of ASCII digits. -/
def digitsToNat (l : List Char) : Nat := digitsToNatAux 0 l

/-- Model of `parseInt(s, 10)` on a character list: optional sign followed by a
longest digit prefix; `none` models `NaN`. -/
def parseIntChars : List Char → Option Int
  | '-' :: cs =>
    match takeDigits cs with
    | ([], _) => none
    | (ds, _) => some (-(digitsToNat ds : Int))
  | '+' :: cs =>
    match takeDigits cs with
    | ([], _) => none
    | (ds, _) => some ((digitsToNat ds : Int))
  | cs =>
    match takeDigits cs with
    | ([], _) => none
    | (ds, _) => some ((digitsToNat ds : Int))

/-- Model of `Number(s)` for the strings arising in this code base: the empty
string is `0`, an optionally signed all-digit string is its value, anything
else is `NaN` (`none`). -/
def jsNumberChars : List Char → Option Int
  | [] => some 0
  | '-' :: cs =>
    if cs ≠ [] ∧ cs.all Char.isDigit then some (-(digitsToNat cs : Int)) else none
  | '+' :: cs =>
    if cs ≠ [] ∧ cs.all Char.isDigit then some ((digitsToNat cs : Int)) else none
  | cs =>
    if cs.all Char.isDigit then some ((digitsToNat cs : Int)) else none

/-- Model of `Number(x)` on a `JVal` (`Number(null) = 0`,
`Number(undefined) = NaN`). -/
def jsNumber : JVal → Option Int
  | .undef => none
  | .null => some 0
  | .int n => some n
  | .str s => jsNumberChars s.data

/-- Digit characters of a natural number (fuel-based, kernel friendly). -/
def natChars : Nat → Nat → List Char
  | 0, _ => []
  | fuel + 1, n =>
    if n < 10 then [Char.ofNat (48 + n)]
    else natChars fuel (n / 10) ++ [Char.ofNat (48 + n % 10)]

/-- Decimal rendering of a natural number. -/
def natStr (n : Nat) : String := ⟨natChars (n + 1) n⟩

/-- Decimal rendering of an integer, as a JS template would produce. -/
def intStr : Int → String
  | .ofNat n => natStr n
  | .negSucc n => "-" ++ natStr (n + 1)

/-! ### Constants (src/constants.ts) -/

/-- The `AA_CODES` table mapping 3-letter amino-acid codes to their 1-letter
forms, in source order. -/
def AA_CODES : List (String × String) :=
  [("ala", "a"), ("arg", "r"), ("asn", "n"), ("asp", "d"), ("asx", "b"),
   ("cys", "c"), ("glu", "e"), ("gln", "q"), ("glx", "z"), ("gly", "g"),
   ("his", "h"), ("ile", "i"), ("leu", "l"), ("lys", "k"), ("met", "m"),
   ("phe", "f"), ("pro", "p"), ("ser", "s"), ("thr", "t"), ("trp", "w"),
   ("tyr", "y"), ("val", "v"), ("ter", "*")]

/-- Lookup in `AA_CODES` (model of `AA_CODES[key]`). -/
def aaLookup (k : String) : Option String :=
  (AA_CODES.find? (fun p => p.1 == k)).map (fun p => p.2)

/-- Alternatives of the `AA_PATTERN` regular expression, in their alternation
order: the 1-letter codes (values of `AA_CODES` except the stop `*`), then
`?`, `X`, `x`, `*`, then the 3-letter codes (keys of `AA_CODES`). -/
def aaAlts : List String :=
  ((AA_CODES.map (fun p => p.2)).filter (fun v => !(v == "*")))
    ++ ["?", "X", "x", "*"] ++ AA_CODES.map (fun p => p.1)

/-- The `NOTATION_TO_TYPES` table (short operator token to long type name), in
source order. -/
def OP_TO_TYPES : List (String × String) :=
  [("ins", "insertion"), ("del", "deletion"), (">", "substitution"),
   ("inv", "inversion"), ("delins", "indel"), ("copygain", "copy gain"),
   ("copyloss", "copy loss"), ("trans", "translocation"),
   ("itrans", "inverted translocation"), ("ext", "extension"),
   ("fs", "frameshift"), ("fusion", "fusion"), ("dup", "duplication"),
   ("me", "methylation"), ("ac", "acetylation"), ("ub", "ubiquitination"),
   ("spl", "splice-site"), ("mut", "mutation"), ("mis", "missense mutation"),
   ("phos", "phosphorylation")]

/-- Lookup in `OP_TO_TYPES` (model of `NOTATION_TO_TYPES[token]`, `undefined`
is `none`). -/
def opToType (k : String) : Option String :=
  ((OP_TO_TYPES).find? (fun p => p.1 == k)).map (fun p => p.2)

/-- The refined type name for a truncating frameshift. -/
def TRUNCATING_FS : String := "truncating frameshift mutation"

/-- The refined type name for a nonsense substitution. -/
def NONSENSE : String := "nonsense mutation"

/-- Insert-or-overwrite into an association list, modelling
`mapping[key] = value` on a JS object (insertion order preserved, existing key
overwritten in place). -/
def assocSet (l : List (String × String)) (k v : String) : List (String × String) :=
  if l.any (fun p => p.1 == k) then
    l.map (fun p => if p.1 == k then (k, v) else p)
  else l ++ [(k, v)]

/-- Model of `addTypeMappings` from src/constants.ts: start from the alias map
and then register `mapping[type] = token` for every entry of
`NOTATION_TO_TYPES`. -/
def addTypeMappings : List (String × String) :=
  (OP_TO_TYPES.foldl (fun m p => assocSet m p.2 p.1)
    [(NONSENSE, ">"), (TRUNCATING_FS, "fs"),
     ("frameshift mutation", "fs"), ("frameshift truncation", "fs"),
     ("missense variant", "mis"), ("truncating frameshift", "fs"),
     ("missense", "mis"), ("mutations", "mut"), ("nonsense", ">")])

/-- The `TYPES_TO_NOTATION` table (long type name to short token). -/
def TYPES_TO_OP : List (String × String) := addTypeMappings

/-- Lookup in `TYPES_TO_OP` (model of `TYPES_TO_NOTATION[type]`). -/
def typeToOp (k : String) : Option String :=
  ((TYPES_TO_OP).find? (fun p => p.1 == k)).map (fun p => p.2)

/-- The coordinate prefixes (keys of `PREFIX_CLASS`): g, y, c, r, i, e, p, n. -/
inductive PFX where
  | g : PFX
  | y : PFX
  | c : PFX
  | r : PFX
  | i : PFX
  | e : PFX
  | p : PFX
  | n : PFX
deriving DecidableEq, Repr

/-- The prefix character accepted for each coordinate system. -/
def PFX.toChar : PFX → Char
  | .g => 'g'
  | .y => 'y'
  | .c => 'c'
  | .r => 'r'
  | .i => 'i'
  | .e => 'e'
  | .p => 'p'
  | .n => 'n'

/-- Decode a prefix character (membership in the keys of `PREFIX_CLASS`). -/
def pfxOfChar : Char → Option PFX
  | 'g' => some .g
  | 'y' => some .y
  | 'c' => some .c
  | 'r' => some .r
  | 'i' => some .i
  | 'e' => some .e
  | 'p' => some .p
  | 'n' => some .n
  | _ => none

/-! ### Position model (src/position.ts) -/

/-- A created position value (the tagged union `AnyPosition`): basic (g/e/i),
CDS-like (c/n/r), protein (p) or cytoband (y).  `pos : Option Int` models
`number | null`; `JOpt` fields model fields that can additionally be absent. -/
inductive Position where
  | basic : PFX → Option Int → Position
  | cdsLike : PFX → Option Int → JOpt Int → Position
  | protein : Option Int → JOpt String → JOpt String → Position
  | cytoband : String → JOpt Int → JOpt Int → Position
deriving DecidableEq, Repr

/-- The `prefix` property of a created position. -/
def Position.pfxOf : Position → PFX
  | .basic pf _ => pf
  | .cdsLike pf _ _ => pf
  | .protein _ _ _ => .p
  | .cytoband _ _ _ => .y

/-- The raw field record handed to `createPosition` (the `position: any`
argument): any subset of the possible position fields. -/
structure PosInput where
  pfx : Option PFX
  pos : JVal
  offset : JVal
  refAA : JVal
  arm : JVal
  majorBand : JVal
  minorBand : JVal
deriving DecidableEq, Repr

/-- A `PosInput` with every field absent. -/
def PosInput.empty : PosInput := ⟨none, .undef, .undef, .undef, .undef, .undef, .undef⟩

/-- Reading the fields of a created position back as a raw input record, as JS
property access does when `createVariantNotation` re-casts a position. -/
def posToInput : Position → PosInput
  | .basic pf pos =>
    { PosInput.empty with
      pfx := some pf
      pos := (match pos with | none => .null | some nn => .int nn) }
  | .cdsLike pf pos off =>
    { PosInput.empty with
      pfx := some pf
      pos := (match pos with | none => .null | some nn => .int nn)
      offset := (match off with | .undef => .undef | .null => .null | .val nn => .int nn) }
  | .protein pos refAA _longRefAA =>
    { PosInput.empty with
      pfx := some .p
      pos := (match pos with | none => .null | some nn => .int nn)
      refAA := (match refAA with | .undef => .undef | .null => .null | .val s => .str s) }
  | .cytoband arm mjr mnr =>
    { PosInput.empty with
      pfx := some .y
      arm := .str arm
      majorBand := (match mjr with | .undef => .undef | .null => .null | .val nn => .int nn)
      minorBand := (match mnr with | .undef => .undef | .null => .null | .val nn => .int nn) }

/-- Model of `checkBasicPosition(pos, allowNegative)`: `?` and `null` give
`null`; a non-numeric value, or a non-positive value when negatives are not
allowed, raises `InputValidationError`. -/
def checkBasicPosition (pos : JVal) (allowNegative : Bool) : Except ErrInfo (Option Int) :=
  if pos == .str "?" || pos == .null then .ok none
  else
    match jsNumber pos with
    | none => .error (iverrA "pos must be a positive integer" "pos")
    | some v =>
      if v ≤ 0 && !allowNegative then
        .error (iverrA "pos must be a positive integer" "pos")
      else .ok (some v)

/-- Model of `createBasicPosition(pos, prefix, allowNegative)`. -/
def createBasicPosition (pos : JVal) (pf : PFX) (allowNegative : Bool) :
    Except ErrInfo Position :=
  match checkBasicPosition pos allowNegative with
  | .error e => .error e
  | .ok v => .ok (.basic pf v)

/-- Model of `createCdsLikePosition({offset, pos}, prefix)`: the position part
goes through `checkBasicPosition` with `allowNegative = true`; a present
(including `null`) offset is coerced with `Number(...)` and must be numeric. -/
def createCdsLikePosition (pos offset : JVal) (pf : PFX) : Except ErrInfo Position :=
  match checkBasicPosition pos true with
  | .error e => .error e
  | .ok v =>
    match offset with
    | .undef => .ok (.cdsLike pf v .undef)
    | o =>
      match jsNumber o with
      | none => .error (iverrA "offset must be an integer" "offset")
      | some n => .ok (.cdsLike pf v (.val n))

/-- Model of `createProteinPosition({refAA, pos})`: `?` becomes `null`; a
3-letter code (looked up lower-cased in `AA_CODES`) is replaced by its 1-letter
value with the original kept in `longRefAA`; any other truthy string is
upper-cased. -/
def createProteinPosition (refAA pos : JVal) : Except ErrInfo Position :=
  match checkBasicPosition pos false with
  | .error e => .error e
  | .ok v =>
    match refAA with
    | .str s =>
      if s == "" then .ok (.protein v (.val s) .null)
      else if s == "?" then .ok (.protein v .null .null)
      else
        match aaLookup (lowerStr s) with
        | some code => .ok (.protein v (.val code) (.val s))
        | none => .ok (.protein v (.val (upperStr s)) .null)
    | .null => .ok (.protein v .null .null)
    | .undef => .ok (.protein v .undef .null)
    | .int n => .ok (.protein v (.val (intStr n)) .null)

/-- String content of the (already checked) arm value. -/
def jvalArmStr : JVal → String
  | .str s => s
  | _ => ""

/-- Minor-band half of `createCytoBandPosition`. -/
def cytoMinor (arm : String) (maj : JOpt Int) (minorBand : JVal) : Except ErrInfo Position :=
  match minorBand with
  | .undef => .ok (.cytoband arm maj .undef)
  | .null => .ok (.cytoband arm maj .null)
  | mb =>
    match jsNumber mb with
    | none => .error (iverrA "minorBand must be a positive integer" "minorBand")
    | some v =>
      if v ≤ 0 then .error (iverrA "minorBand must be a positive integer" "minorBand")
      else .ok (.cytoband arm maj (.val v))

/-- Model of `createCytoBandPosition({arm, majorBand, minorBand})`: the arm
must be the string `p` or `q`; present non-null bands are coerced with
`Number(...)` and must be positive. -/
def createCytoBandPosition (arm majorBand minorBand : JVal) : Except ErrInfo Position :=
  if !(arm == .str "p") && !(arm == .str "q") then
    .error (iverrA "cytoband arm must be p or q" "arm")
  else
    match majorBand with
    | .undef => cytoMinor (jvalArmStr arm) .undef minorBand
    | .null => cytoMinor (jvalArmStr arm) .null minorBand
    | mb =>
      match jsNumber mb with
      | none => .error (iverrA "majorBand must be a positive integer" "majorBand")
      | some v =>
        if v ≤ 0 then .error (iverrA "majorBand must be a positive integer" "majorBand")
        else cytoMinor (jvalArmStr arm) (.val v) minorBand

/-- Model of `createPosition(prefix, position)`; a `none` prefix models the
`null`/unrecognized prefix falling through to the final `ParsingError`. -/
def createPosition (pf : Option PFX) (input : PosInput) : Except ErrInfo Position :=
  match pf with
  | some .p => createProteinPosition input.refAA input.pos
  | some .y => createCytoBandPosition input.arm input.majorBand input.minorBand
  | some .c => createCdsLikePosition input.pos input.offset .c
  | some .n => createCdsLikePosition input.pos input.offset .n
  | some .r => createCdsLikePosition input.pos input.offset .r
  | some .g => createBasicPosition input.pos .g false
  | some .e => createBasicPosition input.pos .e false
  | some .i => createBasicPosition input.pos .i false
  | none => .error (perr "did not recognize position prefix")

/-! ### Hand-compiled versions of the position regular expressions.

The patterns (with the `i` flag, from src/position.ts) are
`CDSLIKE_PATT  = (?<pos>-?(\d+|\?))?(?<offset>[-+](\d+|\?))?`,
`PATTERNS.p    = (?<refAA>AA_PATTERN)?(?<pos>\d+|\?)` and
`PATTERNS.y    = (?<arm>[pq])((?<majorBand>\d+|\?)(\.(?<minorBand>\d+|\?))?)?`;
the default pattern for g/e/i positions in `extractPositions` is `(?<pos>\d+)`.
Each matcher reproduces the JS backtracking order (greedy quantifiers, ordered
alternation, optional groups participating before being skipped). -/

/-- Case-insensitive literal strip: if `s` starts with `pat` up to ASCII case,
return the matched original characters and the rest. -/
def ciStrip : List Char → List Char → Option (List Char × List Char)
  | [], s => some ([], s)
  | _, [] => none
  | a :: as, c :: cs =>
    if c.toLower == a.toLower then
      match ciStrip as cs with
      | some (m, r) => some (c :: m, r)
      | none => none
    else none

/-- The single candidate of the `pos` group `-?(\d+|\?)` of `CDSLIKE_PATT` at
the head of the input, if any (greedy; shrinking the digit run can never make
the rest of the anchored pattern match, so one candidate suffices). -/
def cdsPosCand : List Char → Option (List Char × List Char)
  | '-' :: cs =>
    (match takeDigits cs with
     | ([], rest) =>
       match rest with
       | '?' :: r => some (['-', '?'], r)
       | _ => none
     | (ds, r) => some ('-' :: ds, r))
  | '?' :: cs => some (['?'], cs)
  | cs =>
    match takeDigits cs with
    | ([], _) => none
    | (ds, r) => some (ds, r)

/-- The single candidate of the `offset` group `[-+](\d+|\?)` of
`CDSLIKE_PATT` at the head of the input, if any. -/
def offsetCand : List Char → Option (List Char × List Char)
  | c :: cs =>
    if c == '-' || c == '+' then
      match takeDigits cs with
      | ([], rest) =>
        match rest with
        | '?' :: r => some ([c, '?'], r)
        | _ => none
      | (ds, r) => some (c :: ds, r)
    else none
  | [] => none

/-- Finish an anchored `CDSLIKE_PATT` match after the `pos` group: try the
offset group, then require the end of the string. -/
def cdsFinish (posG : Option (List Char)) (rest : List Char) :
    Option (Option String × Option String) :=
  match offsetCand rest with
  | some (o, r2) =>
    if r2 == ([] : List Char) then some (posG.map (fun l => ⟨l⟩), some ⟨o⟩) else none
  | none => if rest == ([] : List Char) then some (posG.map (fun l => ⟨l⟩), none) else none

/-- Anchored match of `CDSLIKE_PATT` (`^...$`), returning the `pos` and
`offset` groups. -/
def cdsMatch (s : List Char) : Option (Option String × Option String) :=
  match cdsPosCand s with
  | some (pg, rest) =>
    (match cdsFinish (some pg) rest with
     | some g => some g
     | none => cdsFinish none s)
  | none => cdsFinish none s

/-- Unanchored prefix match of `CDSLIKE_PATT` (`^...`), as used by
`extractPositions`; this pattern can match the empty string. -/
def cdsPrefixMatch (s : List Char) : List Char × List Char :=
  let p1 := match cdsPosCand s with
    | some (pg, r) => (pg, r)
    | none => (([] : List Char), s)
  match offsetCand p1.2 with
  | some (o, r) => (p1.1 ++ o, r)
  | none => p1

/-- The `(\d+|\?)` token anchored to the end: the rest must be a nonempty digit
run or exactly `?`. -/
def posTokFull (rest : List Char) : Option (List Char) :=
  if rest ≠ [] ∧ rest.all Char.isDigit then some rest
  else if rest == ['?'] then some rest
  else none

/-- The `(\d+|\?)` token as a prefix: a maximal digit run or a single `?`. -/
def posTokPre : List Char → Option (List Char × List Char)
  | '?' :: cs => some (['?'], cs)
  | cs =>
    match takeDigits cs with
    | ([], _) => none
    | (ds, r) => some (ds, r)

/-- Anchored protein pattern match: try every `AA_PATTERN` alternative for the
optional `refAA` group in alternation order, then the absent group. -/
def proteinMatchGo : List String → List Char → Option (Option String × String)
  | [], s =>
    match posTokFull s with
    | some pg => some (none, ⟨pg⟩)
    | none => none
  | a :: as, s =>
    match ciStrip a.data s with
    | some (m, rest) =>
      (match posTokFull rest with
       | some pg => some (some ⟨m⟩, ⟨pg⟩)
       | none => proteinMatchGo as s)
    | none => proteinMatchGo as s

/-- Anchored match of the protein position pattern, returning the `refAA` and
`pos` groups. -/
def proteinMatch (s : List Char) : Option (Option String × String) :=
  proteinMatchGo aaAlts s

/-- Unanchored prefix match of the protein position pattern. -/
def proteinPrefixGo : List String → List Char → Option (List Char × List Char)
  | [], s => posTokPre s
  | a :: as, s =>
    match ciStrip a.data s with
    | some (m, rest) =>
      (match posTokPre rest with
       | some (pg, r) => some (m ++ pg, r)
       | none => proteinPrefixGo as s)
    | none => proteinPrefixGo as s

/-- Unanchored prefix match of the protein position pattern (matched text and
rest). -/
def proteinPrefixMatch (s : List Char) : Option (List Char × List Char) :=
  proteinPrefixGo aaAlts s

/-- Anchored match of the cytoband pattern, returning the original arm
character and the `majorBand` / `minorBand` groups. -/
def cytoMatch (s : List Char) : Option (String × Option String × Option String) :=
  match s with
  | c :: rest =>
    if c.toLower == 'p' || c.toLower == 'q' then
      match rest with
      | [] => some (⟨[c]⟩, none, none)
      | _ =>
        match posTokPre rest with
        | none => none
        | some (mj, r2) =>
          match r2 with
          | [] => some (⟨[c]⟩, some ⟨mj⟩, none)
          | '.' :: r3 =>
            (match posTokFull r3 with
             | some mn => some (⟨[c]⟩, some ⟨mj⟩, some ⟨mn⟩)
             | none => none)
          | _ => none
    else none
  | [] => none

/-- Unanchored prefix match of the cytoband pattern. -/
def cytoPrefixMatch (s : List Char) : Option (List Char × List Char) :=
  match s with
  | c :: rest =>
    if c.toLower == 'p' || c.toLower == 'q' then
      match posTokPre rest with
      | none => some ([c], rest)
      | some (mj, r2) =>
        (match r2 with
         | '.' :: r3 =>
           (match posTokPre r3 with
            | some (mn, r4) => some (c :: (mj ++ '.' :: mn), r4)
            | none => some (c :: mj, r2))
         | _ => some (c :: mj, r2))
    else none
  | [] => none

/-- The c/n/r branch of `parsePosition`: on a match, `pos` defaults to `1` when
the group is absent and `offset` defaults to `0`. -/
def parseCdsLike (pf : PFX) (s : String) : Except ErrInfo Position :=
  match cdsMatch s.data with
  | none => .error (perr "input did not match the expected pattern for c prefixed positions")
  | some (pos, offset) =>
    createCdsLikePosition
      (match pos with
       | some g => if g == "" then .int 1 else .str g
       | none => .int 1)
      (match offset with | none => .int 0 | some g => .str g)
      pf

/-- Body of `parsePosition` before the catch-block conversion of
`InputValidationError` into `ParsingError`. -/
def parsePositionRaw (pf : PFX) (s : String) : Except ErrInfo Position :=
  match pf with
  | .p =>
    (match proteinMatch s.data with
     | none => .error (perr "input string did not match the expected pattern for p prefixed positions")
     | some (refAA, pos) =>
       createProteinPosition
         (match refAA with | none => .undef | some g => .str g) (.str pos))
  | .y =>
    (match cytoMatch s.data with
     | none => .error (perr "input string did not match the expected pattern for y prefixed positions")
     | some (arm, mj, mn) =>
       createCytoBandPosition (.str arm)
         (match mj with
          | none => .undef
          | some g => if g == "?" then .undef else
              (match parseIntChars g.data with | none => .undef | some v => .int v))
         (match mn with
          | none => .undef
          | some g => if g == "?" then .undef else
              (match parseIntChars g.data with | none => .undef | some v => .int v)))
  | .c => parseCdsLike .c s
  | .n => parseCdsLike .n s
  | .r => parseCdsLike .r s
  | .g => createBasicPosition (.str s) .g false
  | .e => createBasicPosition (.str s) .e false
  | .i => createBasicPosition (.str s) .i false

/-- Model of `parsePosition(prefix, string)` from src/position.ts.  An
`InputValidationError` raised by a constructor is re-thrown as a
`ParsingError` (`upgradeErr`). -/
def parsePosition (pf : PFX) (s : String) : Except ErrInfo Position :=
  match parsePositionRaw pf s with
  | .ok v => .ok v
  | .error e => .error (upgradeErr e)

/-- Tail of the cytoband rendering for the minor band. -/
def cytoMinorStr : JOpt Int → String
  | .undef => ""
  | .null => ".?"
  | .val v => "." ++ (if v == 0 then "?" else intStr v)

/-- Model of `convertPositionToString(position)`. -/
def convertPositionToString (pos : Position) : String :=
  match pos with
  | .cytoband arm mjr mnr =>
    arm ++
      (match mjr with
       | .undef => ""
       | .null => "?" ++ cytoMinorStr mnr
       | .val v => (if v == 0 then "?" else intStr v) ++ cytoMinorStr mnr)
  | .cdsLike _ po off =>
    let offStr : String :=
      match off with
      | .null => "?"
      | .undef => ""
      | .val v => if v == 0 then "" else (if 0 < v then "+" ++ intStr v else intStr v)
    (match po with
     | none => "?"
     | some v => if v == 0 then "?" else intStr v) ++ offStr
  | .protein po refAA _ =>
    (match refAA with
     | .val s => if s == "" then "?" else s
     | _ => "?") ++
    (match po with
     | none => "?"
     | some v => if v == 0 then "?" else intStr v)
  | .basic _ po =>
    (match po with
     | none => "?"
     | some v => if v == 0 then "?" else intStr v)

/-- Model of `createBreakRepr(start, end, multiFeature)`. -/
def createBreakRepr (start : Position) (stop : Option Position) (multiFeature : Bool) :
    Except ErrInfo String :=
  match stop with
  | some e =>
    if !(start.pfxOf == e.pfxOf) then .error (perr "Mismatch prefix in range")
    else if multiFeature then
      .ok (⟨[start.pfxOf.toChar]⟩ ++ "." ++ convertPositionToString start ++ "_"
        ++ convertPositionToString e)
    else
      .ok (⟨[start.pfxOf.toChar]⟩ ++ ".(" ++ convertPositionToString start ++ "_"
        ++ convertPositionToString e ++ ")")
  | none => .ok (⟨[start.pfxOf.toChar]⟩ ++ "." ++ convertPositionToString start)

/-! ### Continuous notation (src/continuous.ts) -/

/-- Model of `getPrefix(string)`: the first character must be one of the keys
of `PREFIX_CLASS` and must be followed by a dot. -/
def getPfx (s : String) : Except ErrInfo PFX :=
  match s.data with
  | [] => .error (perrA "is not an accepted prefix" "prefix")
  | c :: rest =>
    match pfxOfChar c with
    | none => .error (perrA "is not an accepted prefix" "prefix")
    | some pf =>
      match rest with
      | '.' :: _ => .ok pf
      | _ => .error (perrA "Missing . separator after prefix" "punctuation")

/-- Join of the per-chunk lookups used by `convert3to1` (an unknown chunk
contributes the empty string, as `Array.join` renders `undefined`). -/
def conv3Go : List Char → String
  | a :: b :: c :: rest => (aaLookup (lowerStr ⟨[a, b, c]⟩)).getD "" ++ conv3Go rest
  | _ => ""

/-- Model of `convert3to1(notation)`: `=` is returned unchanged, the length
must be a multiple of three, and each 3-letter chunk is looked up lower-cased
in `AA_CODES`. -/
def convert3to1 (s : String) : Except ErrInfo String :=
  if s == "=" then .ok "="
  else if !(s.data.length % 3 == 0) then
    .error (perr "Cannot convert to single letter AA notation. The input is not in 3-letter form")
  else .ok (conv3Go s.data)

/-- The c/n/r case of `extractPositions` (the CDS pattern can match the empty
string, so the match itself never fails). -/
def extractCds (pf : PFX) (s : List Char) :
    Except ErrInfo (List Char × Position × Option Position) :=
  let m := (cdsPrefixMatch s).1
  match parsePosition pf ⟨m⟩ with
  | .error e => .error e
  | .ok st => .ok (m, st, none)

/-- The g/e/i case of `extractPositions` (default pattern `(?<pos>\d+)`). -/
def extractBasic (pf : PFX) (s : List Char) :
    Except ErrInfo (List Char × Position × Option Position) :=
  match takeDigits s with
  | ([], _) => .error (perr "Failed to parse the initial position")
  | (ds, _) =>
    match parsePosition pf ⟨ds⟩ with
    | .error e => .error e
    | .ok st => .ok (ds, st, none)

/-- Model of `extractPositions(prefix, string)`: either a parenthesised
uncertain range, or a prefix-pattern match for a single position; returns the
consumed characters, the start and the optional end position. -/
def extractPositions (pf : PFX) (s : List Char) :
    Except ErrInfo (List Char × Position × Option Position) :=
  match s with
  | '(' :: _ =>
    (match s.findIdx? (fun c => c == ')') with
     | none => .error (perr "Expected a range of positions. Missing the closing parenthesis")
     | some ic =>
       match s.findIdx? (fun c => c == '_') with
       | none => .error (perr "Positions within a range must be separated by an underscore. Missing underscore")
       | some iu =>
         match parsePosition pf ⟨(s.drop 1).take (iu - 1)⟩ with
         | .error e => .error e
         | .ok st =>
           match parsePosition pf ⟨(s.drop (iu + 1)).take (ic - iu - 1)⟩ with
           | .error e => .error e
           | .ok en => .ok (s.take (ic + 1), st, some en))
  | _ =>
    match pf with
    | .y =>
      (match cytoPrefixMatch s with
       | none => .error (perr "Failed to parse the initial position")
       | some (m, _) =>
         match parsePosition .y ⟨m⟩ with
         | .error e => .error e
         | .ok st => .ok (m, st, none))
    | .p =>
      (match proteinPrefixMatch s with
       | none => .error (perr "Failed to parse the initial position")
       | some (m, _) =>
         match parsePosition .p ⟨m⟩ with
         | .error e => .error e
         | .ok st => .ok (m, st, none))
    | .c => extractCds .c s
    | .n => extractCds .n s
    | .r => extractCds .r s
    | .g => extractBasic .g s
    | .e => extractBasic .e s
    | .i => extractBasic .i s

/-! ### Hand-compiled tail patterns of `parseContinuous`. -/

/-- Membership in the character class `[A-Z?*]` under the `i` flag. -/
def seqClassChar (c : Char) : Bool := c.isAlpha || c == '?' || c == '*'

/-- Split off the longest prefix of `[A-Z?*]` characters. -/
def classTake : List Char → List Char × List Char
  | [] => ([], [])
  | c :: cs =>
    if seqClassChar c then
      let p := classTake cs
      (c :: p.1, p.2)
    else ([], c :: cs)

/-- The optional trailing group `([A-Z?*]+|\d+)?` anchored to the end of the
string: absent, a nonempty run of class characters, or a nonempty digit run. -/
def altGroupFull : List Char → Option (Option String)
  | [] => some none
  | cs =>
    if cs.all seqClassChar then some (some ⟨cs⟩)
    else if cs.all Char.isDigit then some (some ⟨cs⟩)
    else none

/-- One candidate split of `del(REF)?ins(ALT)?$`: given a candidate `REF` and
the rest, require the literal `ins` and a valid trailing alt group. -/
def delinsTry (refCand : List Char) (rest : List Char) :
    Option (Option String × Option String) :=
  match ciStrip "ins".data rest with
  | some (_, r2) =>
    (match altGroupFull r2 with
     | some alt => some ((if refCand == ([] : List Char) then none else some ⟨refCand⟩), alt)
     | none => none)
  | none => none

/-- Backtracking over the greedy `REF` group of the `delins` pattern: shrink
the candidate one character at a time, ending with the absent group. -/
def delinsLoop : List Char → List Char → Option (Option String × Option String)
  | [], rest => delinsTry [] rest
  | c :: rr, rest =>
    match delinsTry ((c :: rr).reverse) rest with
    | some g => some g
    | none => delinsLoop rr (c :: rest)

/-- Anchored match of `^del([A-Z?*]+)?ins([A-Z?*]+|\d+)?$` (flag `i`),
returning the `REF` and `ALT` groups. -/
def delinsMatch (tail : List Char) : Option (Option String × Option String) :=
  match ciStrip "del".data tail with
  | some (_, rest) =>
    let p := classTake rest
    delinsLoop p.1.reverse p.2
  | none => none

/-- Anchored match of `^(del|inv|ins|dup)([A-Z?*]+|\d+)?$` (flag `i`) against
the ordered operator alternatives; the operator text keeps its input case. -/
def opMatchGo : List String → List Char → Option (String × Option String)
  | [], _ => none
  | o :: os, tail =>
    match ciStrip o.data tail with
    | some (m, rest) =>
      (match altGroupFull rest with
       | some alt => some (⟨m⟩, alt)
       | none => opMatchGo os tail)
    | none => opMatchGo os tail

/-- Anchored match of the simple-operator pattern. -/
def opMatch (tail : List Char) : Option (String × Option String) :=
  opMatchGo ["del", "inv", "ins", "dup"] tail

/-- Does the tail fully match one of the given alternatives (case
insensitively)? -/
def aaFullWith : List String → List Char → Bool
  | [], _ => false
  | a :: as, t =>
    (match ciStrip a.data t with
     | some (_, []) => true
     | _ => false) || aaFullWith as t

/-- Anchored match of `^(AA_PATTERN|=)$` (flag `i`). -/
def tailIsAAorEq (t : List Char) : Bool := aaFullWith (aaAlts ++ ["="]) t

/-- Membership in the character class `[A-Z?]` under the `i` flag. -/
def subChar (c : Char) : Bool := c.isAlpha || c == '?'

/-- The `(\^[A-Z?])*$` repetition of the substitution alt group. -/
def caretTail : List Char → Bool
  | [] => true
  | '^' :: c :: r => subChar c && caretTail r
  | _ => false

/-- Anchored match of `^([A-Z?])>([A-Z?](\^[A-Z?])*)$` (flag `i`), returning
the ref and alt groups. -/
def subMatch : List Char → Option (String × String)
  | c1 :: '>' :: c2 :: rest =>
    if subChar c1 && subChar c2 && caretTail rest then
      some (⟨[c1]⟩, ⟨c2 :: rest⟩)
    else none
  | _ => none

/-- Membership in `\w`. -/
def wordChar (c : Char) : Bool := c.isAlphanum || c == '_'

/-- The optional truncation-number group `(\d+|\?|\w)?` anchored to the end:
`some g` is a successful clause with group `g`, `none` is a failed clause. -/
def truncCand : List Char → Option (Option (List Char))
  | [] => some none
  | r =>
    if r.all Char.isDigit then some (some r)
    else if r == ['?'] then some (some r)
    else
      match r with
      | [c] => if wordChar c then some (some [c]) else none
      | _ => none

/-- The optional stop clause `((\*|-|Ter)(\d+|\?|\w)?)?` anchored to the end,
returning the stop marker and truncation groups. -/
def stopClause : List Char → Option (Option String × Option String)
  | [] => some (none, none)
  | '*' :: rest =>
    (match truncCand rest with
     | some t => some (some "*", t.map (fun l => (⟨l⟩ : String)))
     | none => none)
  | '-' :: rest =>
    (match truncCand rest with
     | some t => some (some "-", t.map (fun l => (⟨l⟩ : String)))
     | none => none)
  | r =>
    match ciStrip "Ter".data r with
    | some (m, rest) =>
      (match truncCand rest with
       | some t => some (some ⟨m⟩, t.map (fun l => (⟨l⟩ : String)))
       | none => none)
    | none => none

/-- The `(fs|ext)` alternation, returning the lower-cased type (the source
lower-cases the matched text before use). -/
def fsExtType (rest : List Char) : Option (String × List Char) :=
  match ciStrip "fs".data rest with
  | some (_, r) => some ("fs", r)
  | none =>
    match ciStrip "ext".data rest with
    | some (_, r) => some ("ext", r)
    | none => none

/-- Anchored match of `^(AA_PATTERN)?(fs|ext)((\*|-|Ter)(\d+|\?|\w)?)?$`
(flag `i`): try every alt amino-acid candidate in alternation order, then the
absent group; returns (alt, type, stop, trunc). -/
def fsExtGo : List String → List Char →
    Option (Option String × String × Option String × Option String)
  | [], s =>
    (match fsExtType s with
     | some (ty, r) => (stopClause r).map (fun p => (none, ty, p.1, p.2))
     | none => none)
  | a :: as, s =>
    match ciStrip a.data s with
    | some (m, rest) =>
      (match fsExtType rest with
       | some (ty, r) =>
         (match stopClause r with
          | some (st, tr) => some (some ⟨m⟩, ty, st, tr)
          | none => fsExtGo as s)
       | none => fsExtGo as s)
    | none => fsExtGo as s

/-- Anchored match of the frameshift/extension pattern. -/
def fsExtMatch (s : List Char) :
    Option (Option String × String × Option String × Option String) :=
  fsExtGo aaAlts s

/-- The result of the tail dispatch of `parseContinuous` (the local variables
`notationType`, `refSeq`, `untemplatedSeq`, `untemplatedSeqSize` and
`truncation` after the ordered pattern chain).  `truncation` holds
`JOpt (Option Int)` where the inner `none` models `NaN`. -/
structure TailInfo where
  noteType : String
  refSeq : Option String
  untemplatedSeq : Option String
  untemplatedSeqSize : Option Int
  truncation : JOpt (Option Int)
deriving DecidableEq, Repr

/-- Is `parseInt(altSeq, 10)` truthy (a number other than `0`)? -/
def parseIntTruthy : Option String → Bool
  | none => false
  | some s =>
    match parseIntChars s.data with
    | none => false
    | some n => !(n == 0)

/-- The frameshift/extension branch of the tail dispatch. -/
def fsBranch (pf : PFX) (break2Set : Bool) (alt : Option String) (ty : String)
    (stop : Option String) (trunc : Option String) : Except ErrInfo TailInfo :=
  if !(pf == .p) then
    .error (perrA "only protein notation can notate frameshift variants" "type")
  else
    let unt : Option String := if alt ≠ none ∧ !(alt == some "?") then alt else none
    match (if trunc == some "?" then (.ok .null : Except ErrInfo (JOpt (Option Int)))
           else
             match trunc with
             | some t =>
               let v0 := parseIntChars t.data
               let v := if stop == some "-" then v0.map (fun n => -n) else v0
               if alt == some "*" && !(v == some 1) then
                 .error (perrA "invalid framshift specifies a non-immeadiate truncation which conflicts with the terminating alt seqeuence" "truncation")
               else .ok (.val v)
             | none =>
               if alt == some "*" then .ok (.val (some 1))
               else if stop.isSome then .ok .null
               else .ok .undef) with
    | .error e => .error e
    | .ok truncation =>
      if break2Set then .error (perrA "frameshifts cannot span a range" "break2")
      else .ok ⟨ty, none, unt, none, truncation⟩

/-- The ordered tail dispatch of `parseContinuous` (the if/else chain over the
anchored tail patterns; the final else treats the whole tail as the notation
token). -/
def parseTail (pf : PFX) (break2Set : Bool) (tail : List Char) : Except ErrInfo TailInfo :=
  match delinsMatch tail with
  | some (ref, alt) =>
    if parseIntTruthy alt then
      .ok ⟨"delins", ref, none, (parseIntChars ((alt.getD "").data)), .undef⟩
    else if alt ≠ none ∧ !(alt == some "?") then
      .ok ⟨"delins", ref, alt, none, .undef⟩
    else .ok ⟨"delins", ref, none, none, .undef⟩
  | none =>
  match opMatch tail with
  | some (op, alt) =>
    if parseIntTruthy alt then
      (if op == "ins" || op == "dup" then
        .ok ⟨op, none, none, (parseIntChars ((alt.getD "").data)), .undef⟩
      else .ok ⟨op, none, none, none, .undef⟩)
    else if alt ≠ none ∧ !(alt == some "?") then
      (if op == "dup" then .ok ⟨op, alt, alt, none, .undef⟩
       else if op == "ins" then .ok ⟨op, none, alt, none, .undef⟩
       else .ok ⟨op, alt, none, none, .undef⟩)
    else .ok ⟨op, none, none, none, .undef⟩
  | none =>
  if tailIsAAorEq tail || tail.length == 0 then
    (if !(pf == .p) then
      .error (perrA "only protein notation does not use > for a substitution" "break1")
    else if tail.length > 0 && !(tail == "?".data) then
      .ok ⟨">", none, some ⟨tail⟩, none, .undef⟩
    else .ok ⟨">", none, none, none, .undef⟩)
  else
  match subMatch tail with
  | some (ref, alt) =>
    if pf == .p then
      .error (perrA "protein notation does not use > for a substitution" "type")
    else if pf == .e then
      .error (perrA "Cannot define substitutions at the exon coordinate level" "type")
    else .ok ⟨">", some ref, some alt, none, .undef⟩
  | none =>
  match fsExtMatch tail with
  | some (alt, ty, stop, trunc) => fsBranch pf break2Set alt ty stop trunc
  | none =>
  if lowerStr ⟨tail⟩ == "spl" then .ok ⟨"spl", none, none, none, .undef⟩
  else .ok ⟨⟨tail⟩, none, none, none, .undef⟩

/-- The long type names allowed at the cytoband level:
`NOTATION_TO_TYPES.dup/del/copygain/copyloss/inv`. -/
def cytobandAllowed : List (Option String) :=
  [opToType "dup", opToType "del", opToType "copygain", opToType "copyloss",
   opToType "inv"]

/-- The cytoband legality block of `parseContinuous` (the `prefix === 'y'`
checks): no sequence elements and only the five copy-number-like types. -/
def checkCytoband (refSeq unt : Option String) (vtype : String) : Except ErrInfo Unit :=
  if optTruthy refSeq then
    .error (perrA "cannot define sequence elements (refSeq) at the cytoband level" "refSeq")
  else if optTruthy unt then
    .error (perrA "cannot define sequence elements (untemplatedSeq) at the cytoband level" "untemplatedSeq")
  else if !(cytobandAllowed.contains (some vtype)) then
    .error (perrA "Invalid type for cytoband level event notation" "type")
  else .ok ()

/-- Is the refAA of a (protein) position truthy? -/
def posRefAAtruthy : Position → Bool
  | .protein _ (.val s) _ => !(s == "")
  | _ => false

/-- Model of `break1Start.longRefAA || break1Start.refAA` on a protein
position. -/
def posLongOrRef : Position → String
  | .protein _ r l =>
    (match l with
     | .val s =>
       if s == "" then (match r with | .val t => t | _ => "") else s
     | _ => (match r with | .val t => t | _ => ""))
  | _ => ""

/-- Is the longRefAA of a position truthy? -/
def posLongTruthy : Option Position → Bool
  | some (.protein _ _ (.val s)) => !(s == "")
  | _ => false

/-- The protein-specific post-processing block of `parseContinuous`: default
`refSeq` from the reference amino acid of a lone breakpoint, and convert
sequences to 1-letter form when any position used a 3-letter code. -/
def proteinPost (pf : PFX) (b1s : Position) (b1e b2s b2e : Option Position)
    (refSeq unt : Option String) : Except ErrInfo (Option String × Option String) :=
  if !(pf == .p) then .ok (refSeq, unt)
  else
    let refSeq1 :=
      if b1e == none && b2s == none && b2e == none && posRefAAtruthy b1s then
        some (posLongOrRef b1s)
      else refSeq
    let convert :=
      posLongTruthy (some b1s) || posLongTruthy b1e || posLongTruthy b2s || posLongTruthy b2e
    if convert then
      match (match unt with
             | some u => if !(u == "") then (convert3to1 u).map some else .ok unt
             | none => .ok unt) with
      | .error e => .error e
      | .ok unt2 =>
        match (match refSeq1 with
               | some u => if !(u == "") then (convert3to1 u).map some else .ok refSeq1
               | none => .ok refSeq1) with
        | .error e => .error e
        | .ok ref2 => .ok (ref2, unt2)
    else .ok (refSeq1, unt)

/-- The long type names that may carry a truncation:
`NOTATION_TO_TYPES.fs/ext/spl` and `TRUNCATING_FS`. -/
def truncAllowed : List (Option String) :=
  [opToType "fs", opToType "ext", opToType "spl", some TRUNCATING_FS]

/-- The truncation validation block of `parseContinuous`. -/
def validateTrunc (t : JOpt (Option Int)) (vtype : String) : Except ErrInfo (JOpt Int) :=
  match t with
  | .undef => .ok .undef
  | .null =>
    if !(truncAllowed.contains (some vtype)) then
      .error (iverrA "truncation cannot be specified with this event type" "type")
    else .ok .null
  | .val v =>
    if !(truncAllowed.contains (some vtype)) then
      .error (iverrA "truncation cannot be specified with this event type" "type")
    else
      match v with
      | none => .error (iverrA "truncation must be a number" "truncation")
      | some n => .ok (.val n)

/-- The protein type refinement of `parseContinuous`: a substitution with a
truncation or `*` alt becomes `nonsense mutation`, one with a non-`=` alt
becomes `missense mutation`, and a frameshift with a truthy truncation becomes
`truncating frameshift mutation`. -/
def refineType (pf : PFX) (vtype : String) (trunc : JOpt Int) (unt : Option String) : String :=
  if pf == .p then
    (if some vtype == opToType ">" then
      (if jsTruthyInt trunc || unt == some "*" then NONSENSE
       else if !(unt == some "=") then "missense mutation"
       else vtype)
    else if some vtype == opToType "fs" && jsTruthyInt trunc then TRUNCATING_FS
    else vtype)
  else vtype

/-- The parsed record produced by `parseContinuous`. -/
structure ContResult where
  break1Start : Position
  break1End : Option Position
  break2Start : Option Position
  break2End : Option Position
  refSeq : Option String
  untemplatedSeq : Option String
  untemplatedSeqSize : Option Int
  truncation : JOpt Int
  noteType : String
  type : String
  pfx : PFX
deriving DecidableEq, Repr

/-- Final assembly steps of `parseContinuous` after the breakpoints have been
extracted: tail dispatch, type lookup, caret check, cytoband checks, protein
post-processing, truncation validation and type refinement. -/
def contFinish (pf : PFX) (b1s : Position) (b1e : Option Position)
    (b2 : Option (Position × Option Position)) (tail : List Char) :
    Except ErrInfo ContResult :=
  match parseTail pf b2.isSome tail with
  | .error e => .error e
  | .ok ti =>
    match opToType ti.noteType with
    | none => .error (perrA "unsupported notation type" "type")
    | some vtype0 =>
      if (match ti.untemplatedSeq, ti.untemplatedSeqSize with
          | some u, none => !(u == "") && u.data.contains '^'
          | _, _ => false) then
        .error (perrA "unsupported alternate sequence notation" "untemplatedSeq")
      else
        match (if pf == .y then checkCytoband ti.refSeq ti.untemplatedSeq vtype0
               else .ok ()) with
        | .error e => .error e
        | .ok _ =>
          match proteinPost pf b1s b1e (b2.map (fun x => x.1)) (b2.bind (fun x => x.2))
              ti.refSeq ti.untemplatedSeq with
          | .error e => .error e
          | .ok (refSeq2, unt2) =>
            match validateTrunc ti.truncation vtype0 with
            | .error e => .error e
            | .ok trunc2 =>
              .ok { break1Start := b1s
                    break1End := b1e
                    break2Start := b2.map (fun x => x.1)
                    break2End := b2.bind (fun x => x.2)
                    refSeq := refSeq2
                    untemplatedSeq := unt2
                    untemplatedSeqSize := ti.untemplatedSeqSize
                    truncation := trunc2
                    noteType := ti.noteType
                    type := refineType pf vtype0 trunc2 unt2
                    pfx := pf }

/-- Model of `parseContinuous(inputString)` from src/continuous.ts. -/
def parseContinuous (inputString : String) : Except ErrInfo ContResult :=
  let sc := inputString.data
  if sc.length < 3 then
    .error (perr "Too short. Must be a minimum of three characters")
  else
    match getPfx inputString with
    | .error e => .error e
    | .ok pf =>
      let rest := sc.drop 2
      match extractPositions pf rest with
      | .error e => .error { e with violatedAttr := some "break1" }
      | .ok (inp1, b1s, b1e) =>
        let rest2 := rest.drop inp1.length
        match rest2 with
        | '_' :: r3 =>
          (match extractPositions pf r3 with
           | .error e => .error { e with violatedAttr := some "break2" }
           | .ok (inp2, b2s, b2e) =>
             contFinish pf b1s b1e (some (b2s, b2e)) (r3.drop inp2.length))
        | _ => contFinish pf b1s b1e none rest2

/-! ### Variant assembly and serialization (src/variant.ts = src/unnamed/part_010) -/

/-- Split a character list on a one-character separator, as `String.split`
does in JS (`'a:b:'.split(':')` gives three parts, with empty parts kept). -/
def splitCharAux (sep : Char) : List Char → List Char → List (List Char)
  | [], acc => [acc.reverse]
  | c :: cs, acc =>
    if c == sep then acc.reverse :: splitCharAux sep cs []
    else splitCharAux sep cs (c :: acc)

/-- Split on a single character. -/
def splitChar (sep : Char) (s : List Char) : List (List Char) := splitCharAux sep s []

/-- Split on the two-character separator `::` (leftmost, non-overlapping), as
`string.split('::')` does. -/
def splitDColonAux : List Char → List Char → List (List Char)
  | [], acc => [acc.reverse]
  | ':' :: ':' :: cs, acc => acc.reverse :: splitDColonAux cs []
  | c :: cs, acc => splitDColonAux cs (c :: acc)

/-- Split on `::`. -/
def splitDColon (s : List Char) : List (List Char) := splitDColonAux s []

/-- JS template rendering of a `JOpt String` value (`undefined` and `null`
render as their names). -/
def joptRender : JOpt String → String
  | .undef => "undefined"
  | .null => "null"
  | .val s => s

/-- Does the string start with the given character? -/
def startsWithChar (s : String) (c : Char) : Bool :=
  match s.data with
  | d :: _ => d == c
  | [] => false

/-- Does the string end with the given character? -/
def endsWithChar (s : String) (c : Char) : Bool :=
  match s.data.getLast? with
  | some d => d == c
  | none => false

/-- Does a break representation start with `p.`? -/
def startsWithPDot (s : String) : Bool :=
  match s.data with
  | 'p' :: '.' :: _ => true
  | _ => false

/-- Model of `stripParentheses(breakRepr)`: rewrite `x.(...)` to `x....` when
the string matches `^([a-z])\.\((.+)\)$`. -/
def stripParentheses (s : String) : String :=
  match s.data with
  | c :: '.' :: '(' :: rest =>
    if c.isLower && decide (2 ≤ rest.length) && (rest.getLast? == some ')') then
      ⟨c :: '.' :: rest.dropLast⟩
    else s
  | _ => s

/-- Replace the first run of spaces by a dash (model of
`replace(/\s+/, '-')`; only the space character occurs in type names). -/
def replaceFirstSpaces : List Char → List Char
  | [] => []
  | c :: cs =>
    if c == ' ' then '-' :: cs.dropWhile (fun d => d == ' ')
    else c :: replaceFirstSpaces cs

/-- The argument record of `createVariantNotation` (named `createVariant`
here); references and the type are modelled as strings (`OntologyTerm`
objects, for which `ontologyTermRepr` picks a display string, are outside the
scope of the embedded claims, so `ontologyTermRepr` is the identity). -/
structure VariantInput where
  requireFeatures : Bool
  reference1 : JOpt String
  reference2 : JOpt String
  untemplatedSeq : JOpt String
  untemplatedSeqSize : JOpt Int
  type : String
  refSeq : JOpt String
  pfx : Option PFX
  multiFeature : Bool
  truncation : JOpt Int
  noteType : Option String
  break1Start : Option PosInput
  break1End : Option PosInput
  break2Start : Option PosInput
  break2End : Option PosInput
deriving DecidableEq, Repr

/-- A `VariantInput` with every optional field absent. -/
def VariantInput.default : VariantInput :=
  ⟨false, .undef, .undef, .undef, .undef, "", .undef, none, false, .undef, none,
   none, none, none, none⟩

/-- The assembled variant record (`VariantNotation`). -/
structure Variant where
  reference1 : JOpt String
  reference2 : JOpt String
  refSeq : JOpt String
  truncation : JOpt Int
  multiFeature : Bool
  type : String
  break1Start : Position
  break1End : Option Position
  break1Repr : String
  break2Start : Option Position
  break2End : Option Position
  break2Repr : Option String
  untemplatedSeq : JOpt String
  untemplatedSeqSize : JOpt Int
  noFeatures : Bool
  noteType : Option String
  pfx : Option PFX
deriving DecidableEq, Repr

/-- The `formatPosition` closure of `createVariantNotation`: re-cast a present
raw position through `createPosition`, preferring its own prefix over the
variant-level one. -/
def formatPos (vpfx : Option PFX) : Option PosInput → Except ErrInfo (Option Position)
  | none => .ok none
  | some inp =>
    match createPosition (match inp.pfx with | some q => some q | none => vpfx) inp with
    | .error e => .error e
    | .ok v => .ok (some v)

/-- The long type names that reject a second breakpoint:
`NOTATION_TO_TYPES['>']`, `NONSENSE`, `TRUNCATING_FS`,
`NOTATION_TO_TYPES.ext/fs/spl`. -/
def rangeBanned : List (Option String) :=
  [opToType ">", some NONSENSE, some TRUNCATING_FS, opToType "ext",
   opToType "fs", opToType "spl"]

/-- The `if (break2Start)` block of `createVariantNotation`: a second
breakpoint is rejected for range-incompatible types, otherwise its
representation is rendered. -/
def makeBreak2Repr (ty : String) (b2s b2e : Option Position) (mf : Bool) :
    Except ErrInfo (Option String) :=
  match b2s with
  | some b2 =>
    if rangeBanned.contains (some ty) then
      .error (perrA (ty ++ " variants cannot be a range") "break2")
    else
      (match createBreakRepr b2 b2e mf with
       | .error e => .error e
       | .ok r => .ok (some r))
  | none => .ok none

/-- Model of `createVariantNotation(...)` from src/variant.ts; the source name
is shortened because of lexical restrictions on this file. -/
def createVariant (args : VariantInput) : Except ErrInfo Variant :=
  match args.break1Start with
  | none => .error (iverrA "break1Start is a required attribute" "break1Start")
  | some b1in =>
    let noFeatures :=
      !args.requireFeatures && !jsTruthyStr args.reference1 && !jsTruthyStr args.reference2
    let multiFeature := args.multiFeature || jsTruthyStr args.reference2
    let ty := args.type
    let unt : JOpt String :=
      match args.untemplatedSeq with
      | .val s => .val (upperStr s)
      | x => x
    let usize : JOpt Int :=
      match args.untemplatedSeqSize with
      | .undef => (match unt with | .val s => .val (s.data.length : Int) | _ => .undef)
      | x => x
    match typeToOp ty with
    | none => .error (iverrA "invalid type" "type")
    | some _ =>
      match createPosition (match b1in.pfx with | some q => some q | none => args.pfx) b1in with
      | .error e => .error e
      | .ok b1 =>
        match formatPos args.pfx args.break1End with
        | .error e => .error e
        | .ok b1e =>
          match formatPos args.pfx args.break2Start with
          | .error e => .error e
          | .ok b2s =>
            match formatPos args.pfx args.break2End with
            | .error e => .error e
            | .ok b2e =>
              match createBreakRepr b1 b1e multiFeature with
              | .error e => .error e
              | .ok br1 =>
                match makeBreak2Repr ty b2s b2e multiFeature with
                | .error e => .error e
                | .ok br2 =>
                  if some ty == opToType "ins" && b2s.isNone && !(b1.pfxOf == PFX.e) then
                    .error (iverrA "Insertion events must be specified with a range" "type")
                  else
                    .ok { reference1 := args.reference1
                          reference2 := args.reference2
                          refSeq := (match args.refSeq with
                                     | .val s => .val (upperStr s)
                                     | x => x)
                          truncation := args.truncation
                          multiFeature := multiFeature
                          type := ty
                          break1Start := b1
                          break1End := b1e
                          break1Repr := br1
                          break2Start := b2s
                          break2End := b2e
                          break2Repr := br2
                          untemplatedSeq := unt
                          untemplatedSeqSize := usize
                          noFeatures := noFeatures
                          noteType := args.noteType
                          pfx := args.pfx }

/-- The continuous-notation tail of `stringifyVariant` after the reference and
breakpoint representations have been pushed. -/
def stringifyContinuousTail (v : Variant) (noteTy : String) : String :=
  let part3 :=
    if noteTy == "ext" || noteTy == "fs"
        || (noteTy == ">" && startsWithPDot v.break1Repr) then
      (match v.untemplatedSeq with
       | .val s => if s == "" then "" else s
       | _ => "")
    else ""
  let chain :=
    if noteTy == "mis" && jsTruthyStr v.untemplatedSeq && startsWithPDot v.break1Repr then
      joptRender v.untemplatedSeq
    else if !(noteTy == ">") then
      (if noteTy == "delins" then
        "del" ++ (if jsTruthyStr v.refSeq then joptRender v.refSeq else "") ++ "ins"
      else noteTy)
      ++ (if jsTruthyInt v.truncation && !(v.truncation == JOpt.val 1) then
            (match v.truncation with
             | .val t => if t < 0 then intStr t else "*" ++ intStr t
             | _ => "")
          else "")
      ++ (if jsTruthyStr v.refSeq
              && (noteTy == "dup" || noteTy == "del" || noteTy == "inv") then
            joptRender v.refSeq
          else "")
      ++ (if (jsTruthyStr v.untemplatedSeq || jsTruthyInt v.untemplatedSeqSize)
              && (noteTy == "ins" || noteTy == "delins") then
            (if jsTruthyStr v.untemplatedSeq then joptRender v.untemplatedSeq
             else (match v.untemplatedSeqSize with
                   | .val nn => intStr nn
                   | .null => "null"
                   | .undef => "undefined"))
          else "")
    else if !(startsWithPDot v.break1Repr) then
      (if jsTruthyStr v.refSeq then joptRender v.refSeq else "?") ++ noteTy
        ++ (if jsTruthyStr v.untemplatedSeq then joptRender v.untemplatedSeq else "?")
    else ""
  part3 ++ chain

/-- Model of `stringifyVariant(variant, newFusion)`. -/
def stringifyVariant (v : Variant) (newFusion : Bool) : Except ErrInfo String :=
  let noteTy :=
    match v.noteType with
    | some nt => nt
    | none =>
      (match typeToOp v.type with
       | some tk => tk
       | none => ⟨replaceFirstSpaces v.type.data⟩)
  let isMultiRef := v.multiFeature || (jsTruthyStr v.reference2 && !(v.reference2 == v.reference1))
  if isMultiRef then
    match v.break2Repr with
    | none => .error (iverr "Multi-feature notation requires break2Repr")
    | some br2 =>
      if newFusion then
        let ins :=
          match v.untemplatedSeq with
          | .val s => s ++ "::"
          | _ => ""
        if v.noFeatures then .ok (v.break1Repr ++ "::" ++ ins ++ br2)
        else
          .ok (joptRender v.reference1 ++ ":" ++ v.break1Repr ++ "::" ++ ins
            ++ joptRender v.reference2 ++ ":" ++ br2)
      else
        let start :=
          if v.noFeatures then ""
          else "(" ++ joptRender v.reference1 ++ "," ++ joptRender v.reference2 ++ "):"
        let res := start ++ noteTy ++ "(" ++ stripParentheses v.break1Repr ++ ","
          ++ stripParentheses br2 ++ ")"
        .ok (match v.untemplatedSeq with
             | .val s => res ++ s
             | .null => res ++ "null"
             | .undef =>
               (match v.untemplatedSeqSize with
                | .val nn => res ++ intStr nn
                | .null => res ++ "null"
                | .undef => res))
  else
    let head := if !v.noFeatures then joptRender v.reference1 ++ ":" else ""
    let b2part :=
      match v.break2Repr with
      | some b2 => "_" ++ (⟨b2.data.drop 2⟩ : String)
      | none => ""
    .ok (head ++ v.break1Repr ++ b2part ++ stringifyContinuousTail v noteTy)

/-- The record returned by `parseMultiFeature`. -/
structure MFResult where
  type : String
  break1Start : Position
  break1End : Option Position
  break2Start : Position
  break2End : Option Position
  untemplatedSeqSize : Option Int
  untemplatedSeq : Option String
  pfx : Option PFX
deriving DecidableEq, Repr

/-- One breakpoint (optionally an underscore range) of a legacy multi-feature
notation: a prefix, then one position or two positions split on the first
underscore. -/
def parseBreakMF (p : List Char) : Except ErrInfo (PFX × Position × Option Position) :=
  match getPfx ⟨p⟩ with
  | .error e => .error e
  | .ok pf =>
    let body := p.drop 2
    match body.findIdx? (fun c => c == '_') with
    | some iu =>
      (match parsePosition pf ⟨body.take iu⟩ with
       | .error e => .error e
       | .ok b1 =>
         match parsePosition pf ⟨body.drop (iu + 1)⟩ with
         | .error e => .error e
         | .ok b2 => .ok (pf, b1, some b2))
    | none =>
      match parsePosition pf ⟨body⟩ with
      | .error e => .error e
      | .ok b1 => .ok (pf, b1, none)

/-- Model of `parseMultiFeature(string)` from src/variant.ts.  A failing
breakpoint parse is wrapped in a new `ParsingError` whose `violatedAttr` is
`break1`/`break2` and whose `subParserError` carries the inner error (its
`violatedAttr` is kept in `subAttr`). -/
def parseMultiFeature (s : String) : Except ErrInfo MFResult :=
  let sc := s.data
  if sc.length < 6 then
    .error (perr "Too short. Multi-feature notation must be a minimum of six characters")
  else
    match sc.findIdx? (fun c => c == '(') with
    | none => .error (perrA "Missing opening parentheses" "punctuation")
    | some iOpen =>
      let vtypeTok : String := ⟨sc.take iOpen⟩
      if vtypeTok == "" then
        .error (perrA "Variant type was not specified. It is expected to immediately follow the coordinate prefix" "type")
      else
        match opToType vtypeTok with
        | none => .error (perrA "Variant type not recognized" "type")
        | some vtype =>
          if !(vtypeTok == "fusion" || vtypeTok == "trans" || vtypeTok == "itrans") then
            .error (perr "Continuous notation is preferred over multi-feature notation for this variant type")
          else
            match sc.findIdx? (fun c => c == ')') with
            | none => .error (perrA "Missing closing parentheses" "punctuation")
            | some iClose =>
              let rawUnt : List Char := sc.drop (iClose + 1)
              let untPair : Option String × Option Int :=
                if decide (0 < rawUnt.length) then
                  (match parseIntChars rawUnt with
                   | some nn =>
                     if nn == 0 then (some ⟨rawUnt⟩, some rawUnt.length)
                     else (none, some nn)
                   | none => (some ⟨rawUnt⟩, some rawUnt.length))
                else (none, none)
              match splitChar ',' ((sc.drop (iOpen + 1)).take (iClose - iOpen - 1)) with
              | [p1, p2] =>
                (match parseBreakMF p1 with
                 | .error e =>
                   .error ⟨true, "Error in parsing the first breakpoint position/range",
                     some "break1", e.violatedAttr⟩
                 | .ok (pf1, b1s, b1e) =>
                   match parseBreakMF p2 with
                   | .error e =>
                     .error ⟨true, "Error in parsing the second breakpoint position/range",
                       some "break2", e.violatedAttr⟩
                   | .ok (pf2, b2s, b2e) =>
                     .ok { type := vtype
                           break1Start := b1s
                           break1End := b1e
                           break2Start := b2s
                           break2End := b2e
                           untemplatedSeqSize := untPair.2
                           untemplatedSeq := untPair.1
                           pfx := if pf1 == pf2 then some pf1 else none })
              | l =>
                if decide (2 < l.length) then
                  .error (perrA "Single comma expected to split breakpoints/ranges" "punctuation")
                else
                  .error (perrA "Missing comma separator between breakpoints/ranges" "punctuation")

/-- The partial record returned by `parseFusionPart` for one side of a
new-nomenclature fusion. -/
structure FusionPart where
  reference1 : String
  type : String
  pfx : PFX
  break1Start : Position
  break1End : Position
deriving DecidableEq, Repr

/-- Position-range half of `parseFusionPart`: a prefix followed by an
underscore-separated range of exactly two positions. -/
def fusionPartBody (feature : String) (v : List Char) : Except ErrInfo FusionPart :=
  match getPfx ⟨v⟩ with
  | .error e => .error e
  | .ok pf =>
    match splitChar '_' (v.drop 2) with
    | [p1, p2] =>
      (match parsePosition pf ⟨p1⟩ with
       | .error e => .error e
       | .ok b1s =>
         match parsePosition pf ⟨p2⟩ with
         | .error e => .error e
         | .ok b1e =>
           .ok { reference1 := feature
                 type := (opToType "fusion").getD "fusion"
                 pfx := pf
                 break1Start := b1s
                 break1End := b1e })
    | _ => .error (perr "Fusion notation must be a range of positions")

/-- Model of `parseFusionPart(string, requireFeatures)`. -/
def parseFusionPart (s : String) (requireFeatures : Bool) : Except ErrInfo FusionPart :=
  match splitChar ':' s.data with
  | [v] =>
    if requireFeatures then
      .error (perrA "Feature name not specified. Feature name is required" "reference1")
    else fusionPartBody "" v
  | [f, v] => fusionPartBody ⟨f⟩ v
  | _ => .error (perrA "Variant notation must contain a single colon" "punctuation")

/-- Is a character one of the ribonucleotides `A`, `C`, `G`, `U`? -/
def isACGU (c : Char) : Bool := c == 'A' || c == 'C' || c == 'G' || c == 'U'

/-- Model of `parseFusion(string, requireFeatures)` for the new `::`
nomenclature. -/
def parseFusion (s : String) (requireFeatures : Bool) : Except ErrInfo Variant :=
  let parts := splitDColon s.data
  if decide (3 < parts.length) then
    .error (perrA "Fusion variant using new nomenclature must contain 1 or 2 double-colon" "punctuation")
  else
    match (if parts.length == 3 then
             let insertion := (parts.get? 1).getD []
             if insertion ≠ [] ∧ (insertion.map Char.toUpper).all isACGU then
               .ok (JOpt.val (⟨insertion.map Char.toUpper⟩ : String),
                    JOpt.val (insertion.length : Int))
             else
               .error (perrA "Insertion sequence of fusion variant should be given in ribonucleotides" "alphabet")
           else (.ok (.undef, .undef) : Except ErrInfo (JOpt String × JOpt Int))) with
    | .error e => .error e
    | .ok (unt, usize) =>
      match parseFusionPart ⟨parts.headD []⟩ requireFeatures with
      | .error e => .error e
      | .ok t1 =>
        match parseFusionPart ⟨parts.getLastD []⟩ requireFeatures with
        | .error e => .error e
        | .ok t2 =>
          createVariant { VariantInput.default with
            requireFeatures := requireFeatures
            reference1 := .val t1.reference1
            reference2 := .val t2.reference1
            type := t1.type
            multiFeature := true
            pfx := (if t1.pfx == t2.pfx then some t1.pfx else none)
            break1Start := some (posToInput t1.break1Start)
            break1End := some (posToInput t1.break1End)
            break2Start := some (posToInput t2.break1Start)
            break2End := some (posToInput t2.break1End)
            untemplatedSeq := unt
            untemplatedSeqSize := usize }

/-- The continuous / legacy multi-feature dispatch of `parseVariant` once the
feature part and the variant part have been separated. -/
def parseVariantBody (featureString : JOpt String) (variantString : String)
    (requireFeatures : Bool) : Except ErrInfo Variant :=
  let fTruthy := jsTruthyStr featureString
  let fStr := match featureString with | .val s => s | _ => ""
  if variantString.data.contains ','
      || (fTruthy && (startsWithChar fStr '(' || endsWithChar fStr ')'
            || fStr.data.contains ',')) then
    match (if fTruthy then
             (if !(fStr.data.contains ',') then
               .error (perrA "Multi-feature notation must contain two reference features separated by a comma" "reference2")
             else if !(startsWithChar fStr '(') then
               .error (perrA "Missing opening parentheses surrounding the reference features" "punctuation")
             else if !(endsWithChar fStr ')') then
               .error (perrA "Missing closing parentheses surrounding the reference features" "punctuation")
             else
               match splitChar ',' ((fStr.data.drop 1).take (fStr.data.length - 2)) with
               | [r1, r2] => .ok (JOpt.val (⟨r1⟩ : String), JOpt.val (⟨r2⟩ : String))
               | l =>
                 if decide (2 < l.length) then
                   .error (perr "May only specify two features. Found more than a single comma")
                 else .ok (.undef, .undef))
           else (.ok (.undef, .undef) : Except ErrInfo (JOpt String × JOpt String))) with
    | .error e => .error e
    | .ok (r1, r2) =>
      match parseMultiFeature variantString with
      | .error e => .error e
      | .ok mf =>
        createVariant { VariantInput.default with
          requireFeatures := requireFeatures
          reference1 := r1
          reference2 := r2
          type := mf.type
          pfx := mf.pfx
          break1Start := some (posToInput mf.break1Start)
          break1End := mf.break1End.map posToInput
          break2Start := some (posToInput mf.break2Start)
          break2End := mf.break2End.map posToInput
          untemplatedSeq := (match mf.untemplatedSeq with | some u => .val u | none => .undef)
          untemplatedSeqSize := (match mf.untemplatedSeqSize with
                                 | some nn => .val nn
                                 | none => .undef) }
  else
    let r1 : JOpt String := if fTruthy then featureString else .undef
    match parseContinuous variantString with
    | .error e => .error e
    | .ok c =>
      createVariant { VariantInput.default with
        requireFeatures := requireFeatures
        reference1 := r1
        reference2 := .undef
        type := c.type
        pfx := some c.pfx
        multiFeature := false
        truncation := c.truncation
        noteType := some c.noteType
        refSeq := (match c.refSeq with | some x => .val x | none => .undef)
        untemplatedSeq := (match c.untemplatedSeq with | some x => .val x | none => .undef)
        untemplatedSeqSize := (match c.untemplatedSeqSize with
                               | some x => .val x
                               | none => .undef)
        break1Start := some (posToInput c.break1Start)
        break1End := c.break1End.map posToInput
        break2Start := c.break2Start.map posToInput
        break2End := c.break2End.map posToInput }

/-- Model of `parseVariant(string, requireFeatures)`, the top-level entry
point. -/
def parseVariant (s : String) (requireFeatures : Bool) : Except ErrInfo Variant :=
  if s == "" || decide (s.data.length < 4) then
    .error (perr "Too short. Must be a minimum of four characters")
  else if decide (1 < (splitDColon s.data).length) then parseFusion s requireFeatures
  else
    match splitChar ':' s.data with
    | [_only] =>
      if requireFeatures then
        .error (perrA "Feature name not specified. Feature name is required" "reference1")
      else parseVariantBody .null s requireFeatures
    | [f, v] => parseVariantBody (.val ⟨f⟩) ⟨v⟩ requireFeatures
    | _ =>
      .error (perrA "Apart from new fusion nomenclature, variant notation must contain a single colon" "punctuation")

/-! ### The acceptance corpus and the round-trip property.

The corpus strings are those of the repository round-trip test
(`test.each` lists in the jest suite requiring `../src`): the feature-carrying
list and the feature-less list, plus one `i.`- and one `r.`-prefixed
continuous notation so that all eight coordinate prefixes are represented, as
the specification demands.  The reformat pairs are the non-canonical spellings
with their expected canonical outputs, from the same test file. -/

/-- Does `s` parse and stringify back to itself? -/
def roundTrips (req : Bool) (s : String) : Bool :=
  match parseVariant s req with
  | .ok v =>
    (match stringifyVariant v false with
     | .ok t => t == s
     | .error _ => false)
  | .error _ => false

/-- One parse-then-stringify pass (`none` when either step throws). -/
def normalizeVariant (req : Bool) (s : String) : Option String :=
  match parseVariant s req with
  | .ok v =>
    (match stringifyVariant v false with
     | .ok t => some t
     | .error _ => none)
  | .error _ => none

/-- The acceptance corpus parsed with `requireFeatures = true`. -/
def acceptCorpusFeat : List String :=
  ["KRAS:p.G12D", "KRAS:p.G12_G13insH", "KRAS:p.G12delG", "KRAS:p.G12_H14dupGHH",
   "EGFR:e.20_21ins", "FEATURE:c.-23+1A>G", "FEATURE:c.3+1del", "FEATURE:n.3+1del",
   "FEATURE:c.3+1_5-2del", "FEATURE:c.3_5delTAA", "FEATURE:c.(3+1_4-1)_10dup",
   "FEATURE:c.3_(5+1_55-1)dup", "FEATURE:c.(1_3)_(5_7)dup", "FEATURE:c.3_5dupTAA",
   "FEATURE:c.4A>T", "FEATURE:c.(4_7)A>T", "FEATURE:c.(1_3)_(5_7)delTAAinsACG",
   "FEATURE:c.10delTins", "FEATURE:c.10delinsACC", "FEATURE:c.-124C>T",
   "FEATURE:e.1dup", "FEATURE:e.(1_2)dup", "FEATURE:e.1_3dup",
   "FEATURE:e.(1_2)_(3_4)dup", "FEATURE:e.(1_2)_4dup", "FEATURE:e.2_(3_4)dup",
   "FEATURE:p.W288spl", "FEATURE:p.D816N", "FEATURE:p.D816", "FEATURE:p.D?N",
   "FEATURE:p.R10Kfs", "FEATURE:p.R10Kfs*10", "FEATURE:p.R10*fs",
   "FEATURE:p.(R10_M11)fs*10", "FEATURE:p.R10fs*10", "FEATURE:p.R10fs",
   "FEATURE:p.F12G", "FEATURE:p.F12*", "FEATURE:y.pdup", "FEATURE:y.p11dup",
   "FEATURE:y.p11.1dup", "FEATURE:y.p11.1_p13.3dup",
   "FEATURE:y.(p11.1_p11.2)_(p13.4_p14)dup", "FEATURE:y.(p11.1_p11.2)_p13.3dup",
   "FEATURE:y.p13.3_(p15.1_p15.2)dup", "FEATURE:y.qdup", "FEATURE:y.pdel",
   "FEATURE:y.p11.1_p13.3inv", "(FEATURE1,FEATURE2):fusion(e.1,e.2)",
   "(FEATURE1,FEATURE2):trans(g.1,g.2)", "(FEATURE1,FEATURE2):fusion(e.1,e.2)ATGC",
   "(FEATURE1,FEATURE2):fusion(e.1,e.2)5", "(FEATURE1,FEATURE2):fusion(e.1_17,e.20_28)",
   "FEATURE:g.3del", "FEATURE:g.3_5del", "FEATURE:g.3_5delTAA", "FEATURE:g.(3_4)_5dup",
   "FEATURE:g.3_(5_7)dup", "FEATURE:g.(1_3)_(5_7)dup", "FEATURE:g.3_5dupTAA",
   "FEATURE:g.4A>T", "FEATURE:g.(4_7)A>T", "FEATURE:g.(1_3)_(5_7)delTAAinsACG",
   "FEATURE:g.10delTins", "FEATURE:g.10delinsACC", "FEATURE:g.3_4ins8",
   "FEATURE:g.3_4insATC", "FEATURE:g.1234_1235delins29",
   "FEATURE:i.3del", "FEATURE:r.3+1del"]

/-- The acceptance corpus parsed with `requireFeatures = false`. -/
def acceptCorpusNoFeat : List String :=
  ["p.*807ext", "p.M1ext-85", "p.*807ext*101", "p.R80=", "p.*807Lext",
   "p.*807Lext*101", "12:y.q13_q14copygain"]

/-- Non-canonical spellings (with features) and their canonical forms. -/
def reformatFeat : List (String × String) :=
  [("FEATURE:p.W288FS", "FEATURE:p.W288fs"),
   ("FEATURE:p.R10Kfs*", "FEATURE:p.R10Kfs"),
   ("FEATURE:p.Arg10Lysfs*10", "FEATURE:p.R10Kfs*10"),
   ("FEATURE:p.Arg10_Lys12delArgGluLysinsLeu", "FEATURE:p.R10_K12delREKinsL"),
   ("FEATURE:g.(1234_1237)_(1234_1237)dup2", "FEATURE:g.(1234_1237)_(1234_1237)dup")]

/-- Non-canonical spellings (feature-less) and their canonical forms. -/
def reformatNoFeat : List (String × String) :=
  [("p.E55RfsTer11", "p.E55Rfs*11"),
   ("p.*661Lext*?", "p.*661Lext"),
   ("p.Arg80=", "p.R80=")]

/-- Check of the exception clause: the input normalizes to its canonical form
and the canonical form is a fixed point of parse-then-stringify. -/
def normalizesTo (req : Bool) (p : String × String) : Bool :=
  normalizeVariant req p.1 == some p.2 && normalizeVariant req p.2 == some p.2

/-! ### Predicates and concrete records used by the verification theorems. -/

/-- All-positive-or-unknown property of a band field. -/
def bandOk (b : JOpt Int) : Prop :=
  b = .undef ∨ b = .null ∨ ∃ n, b = .val n ∧ 0 < n

/-- The positivity invariant that actually holds of created positions: basic,
protein and cytoband numeric fields are positive or unknown; CDS-like
positions are exempt (they are constructed with `allowNegative`). -/
def posOk (v : Position) : Prop :=
  match v with
  | .basic _ po => po = none ∨ ∃ n, po = some n ∧ 0 < n
  | .protein po _ _ => po = none ∨ ∃ n, po = some n ∧ 0 < n
  | .cytoband _ mj mn => bandOk mj ∧ bandOk mn
  | .cdsLike _ _ _ => True

/-- The six long type names of the range check in `createVariantNotation`. -/
def rangeBannedNames : List String :=
  ["substitution", NONSENSE, TRUNCATING_FS, "extension", "frameshift", "splice-site"]

/-- The parsed record of `FEATURE:p.R10*fs` (a truncating frameshift whose
`*` alt carries no number, so the truncation defaults to `1`). -/
def truncOneExample : Variant :=
  { reference1 := .val "FEATURE"
    reference2 := .undef
    refSeq := .val "R"
    truncation := .val 1
    multiFeature := false
    type := TRUNCATING_FS
    break1Start := .protein (some 10) (.val "R") .null
    break1End := none
    break1Repr := "p.R10"
    break2Start := none
    break2End := none
    break2Repr := none
    untemplatedSeq := .val "*"
    untemplatedSeqSize := .val 1
    noFeatures := false
    noteType := some "fs"
    pfx := some .p }

/-- The refAA invariant guaranteed by a raw position parse: the reference
amino acid of a protein position is absent, `null`, or a single character
(possibly a lower-case 1-letter code from the amino-acid table). -/
def refAASingle (p : Position) : Prop :=
  match p with
  | .protein _ r _ => r = .undef ∨ r = .null ∨ ∃ t, r = .val t ∧ t.data.length = 1
  | _ => True

/-- `refAASingle` on an optional position. -/
def refAASingleO : Option Position → Prop
  | none => True
  | some p => refAASingle p

/-- The claimed invariant on an assembled variant's positions: a protein
refAA is absent, `null`, or a single character fixed by upper-casing. -/
def refAAUpper (p : Position) : Prop :=
  match p with
  | .protein _ r _ =>
    r = .undef ∨ r = .null ∨ ∃ t, r = .val t ∧ t.data.length = 1 ∧ upperStr t = t
  | _ => True

/-- `refAAUpper` on an optional position. -/
def refAAUpperO : Option Position → Prop
  | none => True
  | some p => refAAUpper p

/-- The refAA input constraint under which `createPosition` restores the
upper-case invariant: the raw refAA field is absent, `null`, or a
single-character string. -/
def inputRefOK (inp : PosInput) : Prop :=
  inp.refAA = .undef ∨ inp.refAA = .null
    ∨ ∃ t, inp.refAA = .str t ∧ t.data.length = 1

/-- `inputRefOK` on an optional raw position record. -/
def inputRefOKO : Option PosInput → Prop
  | none => True
  | some inp => inputRefOK inp

/-- A `createVariantNotation` argument record carrying a raw 3-letter
reference amino acid (as a caller may pass directly, without going through
`parsePosition`). -/
def threeLetterArgs : VariantInput :=
  { VariantInput.default with
    type := "deletion"
    pfx := some .p
    break1Start := some { PosInput.empty with
      pfx := some .p
      pos := .int 10
      refAA := .str "Arg" } }

/-- The parsed record of `FEATURE:p.Gly12del`: the 3-letter code is stored
lower-cased by the raw parse and restored to the upper-case 1-letter form
when `createVariantNotation` re-casts the position. -/
def c10Example : Variant :=
  { reference1 := .val "FEATURE"
    reference2 := .undef
    refSeq := .val "G"
    truncation := .undef
    multiFeature := false
    type := "deletion"
    break1Start := .protein (some 12) (.val "G") .null
    break1End := none
    break1Repr := "p.G12"
    break2Start := none
    break2End := none
    break2Repr := none
    untemplatedSeq := .undef
    untemplatedSeqSize := .undef
    noFeatures := false
    noteType := some "del"
    pfx := some .p }

/-- C1: every string of the acceptance corpus (continuous, legacy
multi-feature and fusion notations over all eight coordinate prefixes) is
accepted by `parseVariant` and reproduced exactly by `stringifyVariant`, and
every non-canonical spelling instead normalizes to a canonical form that is a
fixed point of parse-then-stringify (idempotence after the first
normalization). -/
theorem c1_round_trip :
    acceptCorpusFeat.all (roundTrips true) = true
    ∧ acceptCorpusNoFeat.all (roundTrips false) = true
    ∧ reformatFeat.all (normalizesTo true) = true
    ∧ reformatNoFeat.all (normalizesTo false) = true :=
  ⟨rfl, rfl, rfl, rfl⟩

/-! ### C3: parsing of offset-only CDS-like position tokens. -/

/-- C3 (code evaluation at the failing input): with the shipped
`CDSLIKE_PATT`, the `pos` group itself matches a leading minus sign, so
`parsePosition('c', '-124')` yields `pos = -124, offset = 0`, not the
documented `pos = 1, offset = -124`; only for `+`-offsets does the position
default to 1. -/
theorem c3_offset_only_default :
    parsePosition .c "-124" = .ok (.cdsLike .c (some (-124)) (.val 0))
    ∧ parsePosition .c "+124" = .ok (.cdsLike .c (some 1) (.val 124)) :=
  ⟨rfl, rfl⟩

/-! ### C4: positivity of position fields. -/

/-- `checkBasicPosition` without `allowNegative` only returns `null` or a
positive integer. -/
theorem checkBasicPosition_pos (pos : JVal) (r : Option Int)
    (h : checkBasicPosition pos false = .ok r) :
    r = none ∨ ∃ n, r = some n ∧ 0 < n := by
  unfold checkBasicPosition at h
  split at h
  · injection h with h'
    exact Or.inl h'.symm
  · split at h
    · cases h
    · rename_i v _
      split at h
      · cases h
      · injection h with h'
        rename_i hc
        refine Or.inr ⟨v, h'.symm, ?_⟩
        simp at hc
        omega

/-- `createBasicPosition` without `allowNegative` satisfies the positivity
invariant. -/
theorem createBasicPosition_posOk (pos : JVal) (pf : PFX) (v : Position)
    (h : createBasicPosition pos pf false = .ok v) : posOk v := by
  unfold createBasicPosition at h
  split at h
  · cases h
  · rename_i r hr
    injection h with h'
    subst h'
    exact checkBasicPosition_pos pos r hr

/-- `createProteinPosition` satisfies the positivity invariant. -/
theorem createProteinPosition_posOk (r po : JVal) (v : Position)
    (h : createProteinPosition r po = .ok v) : posOk v := by
  unfold createProteinPosition at h
  split at h
  · cases h
  · rename_i base hbase
    have hb := checkBasicPosition_pos po base hbase
    split at h
    iterate 3 (all_goals try split at h)
    all_goals (injection h with h'; subst h'; exact hb)

/-- `cytoMinor` preserves a good major band and produces a good minor band. -/
theorem cytoMinor_posOk (arm : String) (mj : JOpt Int) (mb : JVal) (v : Position)
    (hmj : bandOk mj) (h : cytoMinor arm mj mb = .ok v) : posOk v := by
  unfold cytoMinor at h
  split at h
  · injection h with h'
    subst h'
    exact ⟨hmj, Or.inl rfl⟩
  · injection h with h'
    subst h'
    exact ⟨hmj, Or.inr (Or.inl rfl)⟩
  · split at h
    · cases h
    · rename_i w _
      split at h
      · cases h
      · injection h with h'
        subst h'
        rename_i hc
        refine ⟨hmj, Or.inr (Or.inr ⟨w, rfl, ?_⟩)⟩
        simp at hc
        omega

/-- `createCytoBandPosition` satisfies the positivity invariant. -/
theorem createCytoBandPosition_posOk (arm mj mn : JVal) (v : Position)
    (h : createCytoBandPosition arm mj mn = .ok v) : posOk v := by
  unfold createCytoBandPosition at h
  split at h
  · cases h
  · split at h
    · exact cytoMinor_posOk _ _ _ _ (Or.inl rfl) h
    · exact cytoMinor_posOk _ _ _ _ (Or.inr (Or.inl rfl)) h
    · split at h
      · cases h
      · rename_i w _
        split at h
        · cases h
        · rename_i hc
          refine cytoMinor_posOk _ _ _ _ (Or.inr (Or.inr ⟨w, rfl, ?_⟩)) h
          simp at hc
          omega

/-- `createCdsLikePosition` trivially satisfies the (amended) invariant. -/
theorem createCdsLikePosition_posOk (po off : JVal) (pf : PFX) (v : Position)
    (h : createCdsLikePosition po off pf = .ok v) : posOk v := by
  unfold createCdsLikePosition at h
  split at h
  · cases h
  · split at h
    · injection h with h'
      subst h'
      trivial
    · split at h
      · cases h
      · injection h with h'
        subst h'
        trivial

/-- The c/n/r branch of `parsePosition` satisfies the (amended) invariant. -/
theorem parseCdsLike_posOk (pf : PFX) (s : String) (v : Position)
    (h : parseCdsLike pf s = .ok v) : posOk v := by
  unfold parseCdsLike at h
  split at h
  · cases h
  · exact createCdsLikePosition_posOk _ _ _ _ h

/-- C4 counterexample to the claim as stated: a CDS-like position is created
with a negative `pos` and no error, because `createCdsLikePosition` passes
`allowNegative` to `checkBasicPosition`. -/
theorem c4_negative_cds_pos_accepted :
    createPosition (some .c) { PosInput.empty with pos := .int (-5) }
      = .ok (.cdsLike .c (some (-5)) .undef)
    ∧ (-5 : Int) < 0 :=
  ⟨rfl, by decide⟩

/-- C4 (amended): every position produced by `createPosition` or
`parsePosition` has positive-or-unknown numeric fields for the basic, protein
and cytoband coordinate systems; CDS-like (c/n/r) positions are exempt from
the positivity check on `pos` (constructed with `allowNegative = true`), and
offsets may be any integer. -/
theorem c4_position_positivity :
    (∀ (pf : Option PFX) (inp : PosInput) (v : Position),
        createPosition pf inp = .ok v → posOk v)
    ∧ (∀ (pf : PFX) (s : String) (v : Position),
        parsePosition pf s = .ok v → posOk v) := by
  constructor
  · intro pf inp v h
    unfold createPosition at h
    split at h
    · exact createProteinPosition_posOk _ _ _ h
    · exact createCytoBandPosition_posOk _ _ _ _ h
    · exact createCdsLikePosition_posOk _ _ _ _ h
    · exact createCdsLikePosition_posOk _ _ _ _ h
    · exact createCdsLikePosition_posOk _ _ _ _ h
    · exact createBasicPosition_posOk _ _ _ h
    · exact createBasicPosition_posOk _ _ _ h
    · exact createBasicPosition_posOk _ _ _ h
    · cases h
  · intro pf s v h
    unfold parsePosition at h
    split at h
    · rename_i w hw
      injection h with h'
      subst h'
      unfold parsePositionRaw at hw
      split at hw
      · split at hw
        · cases hw
        · exact createProteinPosition_posOk _ _ _ hw
      · split at hw
        · cases hw
        · exact createCytoBandPosition_posOk _ _ _ _ hw
      · exact parseCdsLike_posOk _ _ _ hw
      · exact parseCdsLike_posOk _ _ _ hw
      · exact parseCdsLike_posOk _ _ _ hw
      · exact createBasicPosition_posOk _ _ _ hw
      · exact createBasicPosition_posOk _ _ _ hw
      · exact createBasicPosition_posOk _ _ _ hw
    · cases h

/-- C4 witness: a concrete genomic position built through `createPosition`
satisfies the invariant. -/
theorem c4_position_positivity_witness :
    posOk (Position.basic .g (some 3)) :=
  c4_position_positivity.1 (some .g) { PosInput.empty with pos := .int 3 }
    (Position.basic .g (some 3)) rfl

/-! ### C6: insertions require a range unless exonic. -/

/-- C6: when the type is `insertion` and no second breakpoint is given, and
the otherwise-valid argument checks all pass, `createVariant` (the embedding
of `createVariantNotation`) raises `InputValidationError` with the message
`Insertion events must be specified with a range` unless the first breakpoint
is exonic; and the exonic insertion `EGFR:e.20_21ins` parses successfully. -/
theorem c6_insertion_range :
    (∀ (args : VariantInput) (b1in : PosInput) (b1 : Position) (b1e : Option Position)
        (br : String),
      args.break1Start = some b1in →
      args.type = "insertion" →
      args.break2Start = none →
      args.break2End = none →
      createPosition (match b1in.pfx with | some q => some q | none => args.pfx) b1in
        = .ok b1 →
      b1.pfxOf ≠ .e →
      formatPos args.pfx args.break1End = .ok b1e →
      createBreakRepr b1 b1e (args.multiFeature || jsTruthyStr args.reference2) = .ok br →
      createVariant args
        = .error ⟨false, "Insertion events must be specified with a range", some "type", none⟩)
    ∧ (parseVariant "EGFR:e.20_21ins" true).isOk = true := by
  constructor
  · intro args b1in b1 b1e br h0 hty h2s h2e h1 hne hfmt hbr
    have hend : (b1.pfxOf == PFX.e) = false := by
      simp [hne]
    have hins : typeToOp "insertion" = some "ins" := rfl
    have hfmt2 : formatPos args.pfx args.break2Start = .ok none := by
      rw [h2s]; rfl
    have hfmt2e : formatPos args.pfx args.break2End = .ok none := by
      rw [h2e]; rfl
    simp only [createVariant, h0, hty, h1, hfmt, hfmt2, hfmt2e, hbr, hins, hend]
    rfl
  · rfl

/-- C6 witness: a genomic insertion without a second breakpoint is rejected
with the range message. -/
theorem c6_insertion_range_witness :
    createVariant { VariantInput.default with
        type := "insertion"
        pfx := some .g
        break1Start := some { PosInput.empty with pos := .int 1 } }
      = .error ⟨false, "Insertion events must be specified with a range", some "type", none⟩ :=
  c6_insertion_range.1 _ { PosInput.empty with pos := .int 1 } (.basic .g (some 1)) none
    "g.1" rfl rfl rfl rfl rfl (by decide) rfl rfl

/-! ### C2: range-incompatible types reject a second breakpoint. -/

/-- Membership in `rangeBannedNames` makes the `includes` test of the source
succeed. -/
theorem contains_of_mem_rangeBanned (t : String) (h : t ∈ rangeBannedNames) :
    rangeBanned.contains (some t) = true := by
  fin_cases h <;> rfl

/-- A successfully rendered second breakpoint implies either that there was no
second breakpoint or that the type is range-compatible. -/
theorem makeBreak2_disj (ty : String) (b2s b2e : Option Position) (mf : Bool)
    (r : Option String) (h : makeBreak2Repr ty b2s b2e mf = .ok r) :
    b2s = none ∨ rangeBanned.contains (some ty) = false := by
  cases b2s
  · exact Or.inl rfl
  · right
    by_contra hc
    rw [Bool.not_eq_false] at hc
    unfold makeBreak2Repr at h
    rw [hc] at h
    simp at h

/-- Each range-banned type name is a valid key of the type table. -/
theorem typeToOp_of_mem_rangeBanned (t : String) (h : t ∈ rangeBannedNames) :
    ∃ tk, typeToOp t = some tk := by
  fin_cases h <;> exact ⟨_, rfl⟩

/-- C2: a variant whose type is substitution, nonsense mutation, truncating
frameshift mutation, extension, frameshift or splice-site never carries a
second breakpoint: an assembled record of such a type has no `break2Start`,
and supplying one (with the earlier argument checks passing) makes
`createVariant` raise `ParsingError` with `violatedAttr = break2`. -/
theorem c2_range_restriction :
    (∀ (args : VariantInput) (v : Variant),
      createVariant args = .ok v → v.type ∈ rangeBannedNames → v.break2Start = none)
    ∧ (∀ (args : VariantInput) (b1in : PosInput) (b1 b2 : Position)
        (b1e b2e : Option Position) (br : String),
      args.break1Start = some b1in →
      args.type ∈ rangeBannedNames →
      createPosition (match b1in.pfx with | some q => some q | none => args.pfx) b1in
        = .ok b1 →
      formatPos args.pfx args.break1End = .ok b1e →
      formatPos args.pfx args.break2Start = .ok (some b2) →
      formatPos args.pfx args.break2End = .ok b2e →
      createBreakRepr b1 b1e (args.multiFeature || jsTruthyStr args.reference2) = .ok br →
      createVariant args
        = .error ⟨true, args.type ++ " variants cannot be a range", some "break2", none⟩) := by
  constructor
  · intro args v h hmem
    have hd : v.break2Start = none ∨ rangeBanned.contains (some v.type) = false := by
      rcases hbs : args.break1Start with _ | b1in <;> simp only [createVariant, hbs] at h
      · cases h
      · iterate 9 (all_goals (try split at h))
        all_goals (try cases h)
        all_goals (exact makeBreak2_disj _ _ _ _ _ (by assumption))
    rcases hd with hd | hd
    · exact hd
    · rw [contains_of_mem_rangeBanned _ hmem] at hd
      cases hd
  · intro args b1in b1 b2 b1e b2e br h0 hmem h1 hfmt1e hfmt2 hfmt2e hbr
    rcases typeToOp_of_mem_rangeBanned _ hmem with ⟨tk, htk⟩
    have hcont : rangeBanned.contains (some args.type) = true :=
      contains_of_mem_rangeBanned _ hmem
    have hmk : makeBreak2Repr args.type (some b2) b2e
        (args.multiFeature || jsTruthyStr args.reference2)
        = .error (perrA (args.type ++ " variants cannot be a range") "break2") := by
      simp only [makeBreak2Repr, hcont]
      rfl
    simp only [createVariant, h0, h1, hfmt1e, hfmt2, hfmt2e, hbr, htk, hmk]
    rfl

/-- C2 witness: a genomic substitution with a second breakpoint is rejected
with `violatedAttr = break2`. -/
theorem c2_range_restriction_witness :
    createVariant { VariantInput.default with
        type := "substitution"
        pfx := some .g
        break1Start := some { PosInput.empty with pos := .int 1 }
        break2Start := some { PosInput.empty with pos := .int 5 } }
      = .error ⟨true, "substitution variants cannot be a range", some "break2", none⟩ :=
  c2_range_restriction.2 _ { PosInput.empty with pos := .int 1 } (.basic .g (some 1))
    (.basic .g (some 5)) none none "g.1" rfl (by decide) rfl rfl rfl rfl rfl

/-! ### C5: cytoband-level restrictions. -/

/-- Reading off the conditions that a passed cytoband check guarantees. -/
theorem checkCytoband_ok (refSeq unt : Option String) (vtype : String) (u : Unit)
    (h : checkCytoband refSeq unt vtype = .ok u) :
    optTruthy refSeq = false ∧ optTruthy unt = false ∧
      cytobandAllowed.contains (some vtype) = true := by
  unfold checkCytoband at h
  split at h
  · cases h
  · split at h
    · cases h
    · split at h
      · cases h
      · refine ⟨?_, ?_, ?_⟩ <;> simp_all

/-- A type whose `includes` test against the cytoband whitelist succeeds is
one of the five copy-number-like type names. -/
theorem mem_of_cytoContains (t : String)
    (h : cytobandAllowed.contains (some t) = true) :
    t ∈ ["duplication", "deletion", "copy gain", "copy loss", "inversion"] := by
  have he : cytobandAllowed
      = [some "duplication", some "deletion", some "copy gain", some "copy loss",
         some "inversion"] := rfl
  rw [he] at h
  simp only [List.contains, List.elem_eq_mem, List.mem_cons, decide_eq_true_eq] at h
  rcases h with h | h | h | h | h | h <;> simp_all

/-- Every record assembled by `contFinish` carries the prefix it was called
with. -/
theorem contFinish_pfx (pf : PFX) (b1s : Position) (b1e : Option Position)
    (b2 : Option (Position × Option Position)) (tail : List Char) (r : ContResult)
    (h : contFinish pf b1s b1e b2 tail = .ok r) : r.pfx = pf := by
  unfold contFinish at h
  iterate 8 (all_goals (try split at h))
  all_goals (try cases h)
  all_goals rfl

/-- A record assembled by `contFinish` at the cytoband prefix has no truthy
sequence elements and a whitelisted type. -/
theorem contFinish_y (b1s : Position) (b1e : Option Position)
    (b2 : Option (Position × Option Position)) (tail : List Char) (r : ContResult)
    (h : contFinish .y b1s b1e b2 tail = .ok r) :
    optTruthy r.refSeq = false ∧ optTruthy r.untemplatedSeq = false ∧
      cytobandAllowed.contains (some r.type) = true := by
  unfold contFinish at h
  rcases hpt : parseTail .y b2.isSome tail with e | ti <;> rw [hpt] at h <;>
    dsimp only [] at h
  · cases h
  rcases hop : opToType ti.noteType with _ | vtype0 <;> rw [hop] at h <;>
    dsimp only [] at h
  · cases h
  split at h
  · cases h
  rw [if_pos (show (PFX.y == PFX.y) = true from rfl)] at h
  rcases hcc : checkCytoband ti.refSeq ti.untemplatedSeq vtype0 with e | u <;>
    rw [hcc] at h <;> dsimp only [] at h
  · cases h
  rw [show proteinPost PFX.y b1s b1e (b2.map (fun x => x.1)) (b2.bind (fun x => x.2))
      ti.refSeq ti.untemplatedSeq = .ok (ti.refSeq, ti.untemplatedSeq) from rfl] at h
  dsimp only [] at h
  rcases hvt : validateTrunc ti.truncation vtype0 with e | trunc2 <;> rw [hvt] at h <;>
    dsimp only [] at h
  · cases h
  cases h
  exact checkCytoband_ok _ _ _ u hcc

/-- C5: a continuous-notation parse that succeeds at the cytoband prefix never
carries a truthy `refSeq` or `untemplatedSeq` and its type is one of
duplication, deletion, copy gain, copy loss, inversion; conversely, whenever a
truthy sequence element or a non-whitelisted type reaches the cytoband check,
a `ParsingError` is raised. -/
theorem c5_cytoband_restriction :
    (∀ (s : String) (r : ContResult),
      parseContinuous s = .ok r → r.pfx = .y →
      optTruthy r.refSeq = false ∧ optTruthy r.untemplatedSeq = false ∧
        r.type ∈ ["duplication", "deletion", "copy gain", "copy loss", "inversion"])
    ∧ (∀ (refSeq unt : Option String) (vtype : String),
      (optTruthy refSeq = true ∨ optTruthy unt = true ∨
        cytobandAllowed.contains (some vtype) = false) →
      ∃ e, checkCytoband refSeq unt vtype = .error e ∧ e.isParsing = true) := by
  constructor
  · intro s r h hy
    unfold parseContinuous at h
    dsimp only [] at h
    by_cases hlen : s.data.length < 3
    · rw [if_pos hlen] at h
      cases h
    rw [if_neg hlen] at h
    rcases hgp : getPfx s with e | pf <;> rw [hgp] at h <;> dsimp only [] at h
    · cases h
    rcases hep : extractPositions pf (s.data.drop 2) with e | trip <;> rw [hep] at h <;>
      dsimp only [] at h
    · cases h
    rcases trip with ⟨inp1, b1s, b1e⟩
    dsimp only [] at h
    split at h
    · rename_i r3 heq
      rcases hep2 : extractPositions pf r3 with e | trip2 <;> rw [hep2] at h <;>
        dsimp only [] at h
      · cases h
      rcases trip2 with ⟨inp2, b2s, b2e⟩
      dsimp only [] at h
      have hpf := contFinish_pfx _ _ _ _ _ _ h
      have hpy : pf = .y := hpf.symm.trans hy
      subst hpy
      have hc := contFinish_y _ _ _ _ _ h
      exact ⟨hc.1, hc.2.1, mem_of_cytoContains _ hc.2.2⟩
    · have hpf := contFinish_pfx _ _ _ _ _ _ h
      have hpy : pf = .y := hpf.symm.trans hy
      subst hpy
      have hc := contFinish_y _ _ _ _ _ h
      exact ⟨hc.1, hc.2.1, mem_of_cytoContains _ hc.2.2⟩
  · intro refSeq unt vtype hbad
    unfold checkCytoband
    split
    · exact ⟨_, rfl, rfl⟩
    · split
      · exact ⟨_, rfl, rfl⟩
      · split
        · exact ⟨_, rfl, rfl⟩
        · exfalso
          rcases hbad with hb | hb | hb <;> simp_all

/-- C5 witness: `y.p11dup` parses at the cytoband prefix and satisfies the
restrictions. -/
theorem c5_cytoband_restriction_witness :
    optTruthy none = false ∧ optTruthy none = false ∧
      "duplication" ∈ ["duplication", "deletion", "copy gain", "copy loss", "inversion"] :=
  c5_cytoband_restriction.1 "y.p11dup"
    { break1Start := .cytoband "p" (.val 11) .undef
      break1End := none
      break2Start := none
      break2End := none
      refSeq := none
      untemplatedSeq := none
      untemplatedSeqSize := none
      truncation := .undef
      noteType := "dup"
      type := "duplication"
      pfx := .y } rfl rfl

/-! ### C7: each side of a new-nomenclature fusion must be a two-position
range. -/

/-- C7: in new-style (`::`-separated) fusion notation, each side must be an
underscore-separated range of exactly two positions after its prefix: whenever
the prefix itself is accepted but the remainder does not split on `_` into
exactly two parts, `parseFusionPart`'s body raises
`ParsingError('Fusion notation must be a range of positions')`; conversely any
accepted side split on `_` into exactly two parts; in particular
`parseVariant` rejects a single-position side (`A:g.1::B:g.2_3`) and a
three-position side (`A:g.1_2_3::B:g.4_5`) with that error. -/
theorem c7_fusion_part_range :
    (∀ (feature : String) (v : List Char) (pf : PFX),
        getPfx ⟨v⟩ = .ok pf →
        (splitChar '_' (v.drop 2)).length ≠ 2 →
        fusionPartBody feature v
          = .error (perr "Fusion notation must be a range of positions"))
    ∧ (∀ (feature : String) (v : List Char) (part : FusionPart),
        fusionPartBody feature v = .ok part →
        (splitChar '_' (v.drop 2)).length = 2)
    ∧ parseVariant "A:g.1::B:g.2_3" true
        = .error (perr "Fusion notation must be a range of positions")
    ∧ parseVariant "A:g.1_2_3::B:g.4_5" true
        = .error (perr "Fusion notation must be a range of positions") := by
  refine ⟨?_, ?_, rfl, rfl⟩
  · intro feature v pf hpf hne
    unfold fusionPartBody
    rw [hpf]
    dsimp only []
    rcases hsp : splitChar '_' (v.drop 2) with _ | ⟨p1, _ | ⟨p2, _ | ⟨p3, rest3⟩⟩⟩ <;>
        try rfl
    exact absurd (by rw [hsp]; rfl) hne
  · intro feature v part h
    unfold fusionPartBody at h
    rcases hpf : getPfx ⟨v⟩ with e | pf <;> rw [hpf] at h <;> dsimp only [] at h
    · cases h
    split at h
    · rename_i p1 p2 heq
      rw [heq]
      rfl
    · cases h

/-- Witness: the universal direction of `c7_fusion_part_range` applied to the
concrete single-position side `g.1`. -/
theorem c7_fusion_part_range_witness :
    getPfx ⟨['g', '.', '1']⟩ = .ok PFX.g
    ∧ (splitChar '_' (['g', '.', '1'].drop 2)).length ≠ 2
    ∧ fusionPartBody "A" ['g', '.', '1']
        = .error (perr "Fusion notation must be a range of positions") :=
  ⟨rfl, by decide,
   c7_fusion_part_range.1 "A" ['g', '.', '1'] PFX.g rfl (by decide)⟩

/-! ### C8: prefix legality and how the prefix error surfaces. -/

/-- An unrecognized leading character makes `getPfx` raise the
`is not an accepted prefix` `ParsingError` with `violatedAttr = prefix`. -/
theorem getPfx_invalid (s : String) (c : Char) (rest : List Char)
    (hdata : s.data = c :: rest) (hc : pfxOfChar c = none) :
    getPfx s = .error (perrA "is not an accepted prefix" "prefix") := by
  unfold getPfx
  rw [hdata]
  dsimp only []
  rw [hc]

/-- C8 counterexample: in legacy multi-feature notation an illegal coordinate
prefix (`k`) inside a breakpoint is re-wrapped, so the error reaching the
caller of `parseVariant` carries `violatedAttr = break1` (the inner `prefix`
attribute survives only on the nested sub-parser error), contradicting the
claim that the raised error always carries `violatedAttr = prefix`. -/
theorem c8_wrapped_prefix_error :
    parseVariant "(FEATURE1,FEATURE2):trans(k.1,e.2)" true
      = .error ⟨true, "Error in parsing the first breakpoint position/range",
          some "break1", some "prefix"⟩
    ∧ (some "break1" : Option String) ≠ (some "prefix" : Option String) :=
  ⟨rfl, by decide⟩

/-- C8 (amended): a coordinate prefix outside `{g,i,e,c,n,r,p,y}` always
raises `ParsingError('is not an accepted prefix')` with
`violatedAttr = prefix` from `getPfx`, and that error propagates unchanged
through `parseContinuous` (for inputs long enough to reach the prefix check)
and through each fusion side; only the legacy multi-feature path re-wraps it
in a `ParsingError` whose `violatedAttr` is `break1`/`break2` and whose
nested sub-parser error keeps `violatedAttr = prefix`. -/
theorem c8_prefix_legality :
    (∀ (s : String) (c : Char) (rest : List Char),
        s.data = c :: rest → pfxOfChar c = none →
        getPfx s = .error (perrA "is not an accepted prefix" "prefix"))
    ∧ (∀ (s : String) (c : Char) (rest : List Char),
        s.data = c :: rest → pfxOfChar c = none →
        ¬ s.data.length < 3 →
        parseContinuous s = .error (perrA "is not an accepted prefix" "prefix"))
    ∧ (∀ (feature : String) (c : Char) (rest : List Char),
        pfxOfChar c = none →
        fusionPartBody feature (c :: rest)
          = .error (perrA "is not an accepted prefix" "prefix"))
    ∧ parseMultiFeature "trans(k.1,e.2)"
        = .error ⟨true, "Error in parsing the first breakpoint position/range",
            some "break1", some "prefix"⟩
    ∧ parseMultiFeature "trans(e.1,k.2)"
        = .error ⟨true, "Error in parsing the second breakpoint position/range",
            some "break2", some "prefix"⟩ := by
  refine ⟨fun s c rest hd hc => getPfx_invalid s c rest hd hc, ?_, ?_, rfl, rfl⟩
  · intro s c rest hd hc hlen
    unfold parseContinuous
    dsimp only []
    rw [if_neg hlen, getPfx_invalid s c rest hd hc]
  · intro feature c rest hc
    unfold fusionPartBody
    rw [getPfx_invalid ⟨c :: rest⟩ c rest rfl hc]

/-- Witness: `c8_prefix_legality` applied to the concrete illegal-prefix
continuous notation `x.100del`. -/
theorem c8_prefix_legality_witness :
    (("x.100del" : String).data = 'x' :: ['.', '1', '0', '0', 'd', 'e', 'l']
      ∧ pfxOfChar 'x' = none
      ∧ ¬ ("x.100del" : String).data.length < 3)
    ∧ parseContinuous "x.100del"
        = .error (perrA "is not an accepted prefix" "prefix") :=
  ⟨⟨rfl, rfl, by decide⟩,
   c8_prefix_legality.2.1 "x.100del" 'x' ['.', '1', '0', '0', 'd', 'e', 'l']
     rfl rfl (by decide)⟩

/-! ### C9: a truncation of exactly 1 is never rendered. -/

/-- C9: `stringifyVariant` renders a truncation suffix only when the value is
truthy and different from `1`, so a record with `truncation = 1` serializes
exactly as if the truncation were absent; `p.R10*fs` parses with
`truncation = 1` and round-trips unchanged, while the `fs*1` spelling is
normalized to drop the `*1`. -/
theorem c9_truncation_one :
    (∀ (v : Variant) (newFusion : Bool),
        v.truncation = .val 1 →
        stringifyVariant v newFusion
          = stringifyVariant { v with truncation := .undef } newFusion)
    ∧ (parseVariant "FEATURE:p.R10*fs" true).map (fun v => v.truncation)
        = .ok (.val 1)
    ∧ parseVariant "FEATURE:p.R10*fs" true = .ok truncOneExample
    ∧ normalizeVariant true "FEATURE:p.R10*fs" = some "FEATURE:p.R10*fs"
    ∧ normalizeVariant true "FEATURE:p.R10fs*1" = some "FEATURE:p.R10fs" := by
  refine ⟨?_, rfl, rfl, rfl, rfl⟩
  intro v newFusion h
  have hv : v = { v with truncation := JOpt.val 1 } := by rw [← h]
  rw [hv]
  rfl

/-- Witness: `c9_truncation_one` applied to the concrete parsed record of
`FEATURE:p.R10*fs`. -/
theorem c9_truncation_one_witness :
    truncOneExample.truncation = .val 1
    ∧ stringifyVariant truncOneExample false
        = stringifyVariant { truncOneExample with truncation := .undef } false :=
  ⟨rfl, c9_truncation_one.1 truncOneExample false rfl⟩

/-! ### C10: the reference amino acid of assembled protein positions. -/

/-- For a code point below the surrogate range, `Char.ofNat` stores it
exactly. -/
theorem toNat_ofNat_lt (n : Nat) (h : n < 55296) : (Char.ofNat n).toNat = n := by
  unfold Char.ofNat
  rw [dif_pos (Or.inl h)]
  unfold Char.ofNatAux
  simp [Char.toNat, UInt32.toNat, UInt32.ofNatCore]

/-- ASCII upper-casing is idempotent. -/
theorem toUpper_toUpper (c : Char) : c.toUpper.toUpper = c.toUpper := by
  unfold Char.toUpper
  dsimp only []
  by_cases h : c.toNat ≥ 97 ∧ c.toNat ≤ 122
  · rw [if_pos h]
    rw [if_neg]
    rw [toNat_ofNat_lt _ (by omega)]
    omega
  · rw [if_neg h, if_neg h]

/-- `toUpperCase` is idempotent on strings. -/
theorem upperStr_upperStr (t : String) : upperStr (upperStr t) = upperStr t := by
  unfold upperStr
  dsimp only []
  rw [List.map_map]
  apply congrArg
  apply List.map_congr_left
  intro c _
  exact toUpper_toUpper c

/-- Upper-casing preserves the length. -/
theorem upperStr_len (t : String) : (upperStr t).data.length = t.data.length := by
  unfold upperStr
  exact List.length_map _ _

/-- Lower-casing preserves the length. -/
theorem lowerStr_len (t : String) : (lowerStr t).data.length = t.data.length := by
  unfold lowerStr
  exact List.length_map _ _

/-- Every key of `AA_CODES` has three characters, so a lookup of a string of
any other length misses. -/
theorem aaLookup_len_ne (t : String) (h : t.data.length ≠ 3) : aaLookup t = none := by
  unfold aaLookup
  have hn : AA_CODES.find? (fun p => p.1 == t) = none := by
    rw [List.find?_eq_none]
    intro p hp
    have h3 : p.1.data.length = 3 := by
      have hall : ∀ q ∈ AA_CODES, q.1.data.length = 3 := by decide
      exact hall p hp
    simp only [beq_iff_eq]
    intro he
    exact h (he ▸ h3)
  rw [hn]
  rfl

/-- Every value of the `AA_CODES` table is a 1-letter code. -/
theorem aaLookup_val_single (k code : String) (h : aaLookup k = some code) :
    code.data.length = 1 := by
  unfold aaLookup at h
  rcases hf : AA_CODES.find? (fun p => p.1 == k) with _ | p
  · rw [hf] at h
    cases h
  · rw [hf] at h
    dsimp only [Option.map] at h
    cases h
    have hmem : p ∈ AA_CODES := List.mem_of_find?_eq_some hf
    have hall : ∀ q ∈ AA_CODES, q.2.data.length = 1 := by decide
    exact hall p hmem

/-- Looking up a key of `AA_CODES` succeeds with a 1-letter code. -/
theorem aaKey_lookup (a : String) (ha : a ∈ AA_CODES.map (fun p => p.1)) :
    ∃ code, aaLookup a = some code ∧ code.data.length = 1 := by
  obtain ⟨p, hp, rfl⟩ := List.mem_map.mp ha
  have hsome : (AA_CODES.find? (fun q => q.1 == p.1)).isSome := by
    rw [List.find?_isSome]
    exact ⟨p, hp, by simp⟩
  obtain ⟨q, hq⟩ := Option.isSome_iff_exists.mp hsome
  refine ⟨q.2, ?_, ?_⟩
  · unfold aaLookup
    rw [hq]
    rfl
  · have hall : ∀ z ∈ AA_CODES, z.2.data.length = 1 := by decide
    exact hall q (List.mem_of_find?_eq_some hq)

/-- Every alternative of `AA_PATTERN` is a single character or a 3-letter
key of the amino-acid table, already lower-case. -/
theorem aaAlts_classify : ∀ a ∈ aaAlts,
    a.data.length = 1
      ∨ (a.data.length = 3 ∧ lowerStr a = a ∧ a ∈ AA_CODES.map (fun p => p.1)) := by
  decide

/-- A case-insensitive literal match returns text equal to the pattern up to
ASCII case. -/
theorem ciStrip_lower (a s m r : List Char) (h : ciStrip a s = some (m, r)) :
    m.map Char.toLower = a.map Char.toLower := by
  induction a generalizing s m r with
  | nil =>
    unfold ciStrip at h
    simp only [Option.some.injEq, Prod.mk.injEq] at h
    rw [← h.1]
  | cons x xs ih =>
    match s with
    | [] => exact absurd h (by simp [ciStrip])
    | c :: cs =>
      dsimp only [ciStrip] at h
      by_cases hc : c.toLower == x.toLower
      · rw [if_pos hc] at h
        rcases hcs : ciStrip xs cs with _ | ⟨m2, r2⟩ <;> rw [hcs] at h <;>
            dsimp only [] at h
        · cases h
        · simp only [Option.some.injEq, Prod.mk.injEq] at h
          obtain ⟨hm, _⟩ := h
          rw [← hm]
          simp only [List.map_cons, List.cons.injEq]
          exact ⟨by simpa using hc, ih cs m2 r2 hcs⟩
      · rw [if_neg hc] at h
        cases h

/-- A present `refAA` group of the protein pattern is the (case-preserving)
match of one of the `AA_PATTERN` alternatives. -/
theorem proteinMatchGo_refAA (alts : List String) (s : List Char)
    (g pos : String) (h : proteinMatchGo alts s = some (some g, pos)) :
    ∃ a ∈ alts, ∃ r, ciStrip a.data s = some (g.data, r) := by
  induction alts with
  | nil =>
    dsimp only [proteinMatchGo] at h
    rcases hp : posTokFull s with _ | pg <;> rw [hp] at h <;> simp at h
  | cons a as ih =>
    dsimp only [proteinMatchGo] at h
    rcases hcs : ciStrip a.data s with _ | ⟨m, rest⟩ <;> rw [hcs] at h <;>
        dsimp only [] at h
    · obtain ⟨b, hb, hr⟩ := ih h
      exact ⟨b, List.mem_cons_of_mem _ hb, hr⟩
    · rcases hp : posTokFull rest with _ | pg <;> rw [hp] at h <;> dsimp only [] at h
      · obtain ⟨b, hb, hr⟩ := ih h
        exact ⟨b, List.mem_cons_of_mem _ hb, hr⟩
      · simp only [Option.some.injEq, Prod.mk.injEq] at h
        exact ⟨a, List.mem_cons_self a as, rest, by rw [← h.1]; exact hcs⟩

/-- `createProteinPosition` keeps the single-character property when its
refAA input is absent, a single character, or a string whose lower-casing is
a 3-letter table key. -/
theorem createProteinPosition_refAASingle (r po : JVal) (v : Position)
    (h : createProteinPosition r po = .ok v)
    (hr : r = .undef ∨ r = .null ∨ ∃ t, r = .str t ∧
        (t.data.length = 1
          ∨ ∃ code, aaLookup (lowerStr t) = some code ∧ code.data.length = 1)) :
    refAASingle v := by
  unfold createProteinPosition at h
  split at h
  · cases h
  rcases hr with hr | hr | ⟨t, ht, hca⟩
  · subst hr
    dsimp only [] at h
    cases h
    exact Or.inl rfl
  · subst hr
    dsimp only [] at h
    cases h
    exact Or.inr (Or.inl rfl)
  · subst ht
    dsimp only [] at h
    split at h
    · rename_i h0
      have ht0 : t = "" := by simpa using h0
      subst ht0
      rcases hca with hlen | ⟨code, hc, _⟩
      · simp at hlen
      · have hz : aaLookup (lowerStr "") = none := rfl
        rw [hz] at hc
        cases hc
    · split at h
      · cases h
        exact Or.inr (Or.inl rfl)
      · split at h
        · rename_i code' hcode
          cases h
          exact Or.inr (Or.inr ⟨code', rfl, aaLookup_val_single _ _ hcode⟩)
        · rename_i hnone
          cases h
          refine Or.inr (Or.inr ⟨upperStr t, rfl, ?_⟩)
          rcases hca with hlen | ⟨code, hc, _⟩
          · rw [upperStr_len]
            exact hlen
          · rw [hnone] at hc
            cases hc

/-- `createProteinPosition` upper-cases a present single-character refAA
input: the 3-letter table lookup misses, so the `toUpperCase` branch runs. -/
theorem createProteinPosition_refAAUpper (r po : JVal) (v : Position)
    (h : createProteinPosition r po = .ok v)
    (hr : r = .undef ∨ r = .null ∨ ∃ t, r = .str t ∧ t.data.length = 1) :
    refAAUpper v := by
  unfold createProteinPosition at h
  split at h
  · cases h
  rcases hr with hr | hr | ⟨t, ht, hlen⟩
  · subst hr
    dsimp only [] at h
    cases h
    exact Or.inl rfl
  · subst hr
    dsimp only [] at h
    cases h
    exact Or.inr (Or.inl rfl)
  · subst ht
    dsimp only [] at h
    split at h
    · rename_i h0
      have ht0 : t = "" := by simpa using h0
      rw [ht0] at hlen
      simp at hlen
    · split at h
      · cases h
        exact Or.inr (Or.inl rfl)
      · split at h
        · rename_i code' hcode
          have hnone : aaLookup (lowerStr t) = none :=
            aaLookup_len_ne _ (by rw [lowerStr_len, hlen]; decide)
          rw [hnone] at hcode
          cases hcode
        · cases h
          refine Or.inr (Or.inr ⟨upperStr t, rfl, ?_, upperStr_upperStr t⟩)
          rw [upperStr_len]
          exact hlen

/-- An accepted `createBasicPosition` value is a basic position. -/
theorem createBasicPosition_shape (po : JVal) (pf : PFX) (an : Bool) (v : Position)
    (h : createBasicPosition po pf an = .ok v) : ∃ x, v = .basic pf x := by
  unfold createBasicPosition at h
  split at h
  · cases h
  · cases h
    exact ⟨_, rfl⟩

/-- An accepted `createCdsLikePosition` value is a CDS-like position. -/
theorem createCdsLikePosition_shape (po off : JVal) (pf : PFX) (v : Position)
    (h : createCdsLikePosition po off pf = .ok v) : ∃ x y, v = .cdsLike pf x y := by
  unfold createCdsLikePosition at h
  split at h
  · cases h
  · split at h
    · cases h
      exact ⟨_, _, rfl⟩
    · split at h
      · cases h
      · cases h
        exact ⟨_, _, rfl⟩

/-- An accepted `cytoMinor` value is a cytoband position. -/
theorem cytoMinor_shape (arm : String) (maj : JOpt Int) (mb : JVal) (v : Position)
    (h : cytoMinor arm maj mb = .ok v) : ∃ a b c, v = .cytoband a b c := by
  unfold cytoMinor at h
  iterate 3 (all_goals (try split at h))
  all_goals (cases h)
  all_goals exact ⟨_, _, _, rfl⟩

/-- An accepted `createCytoBandPosition` value is a cytoband position. -/
theorem createCytoBandPosition_shape (arm mj mn : JVal) (v : Position)
    (h : createCytoBandPosition arm mj mn = .ok v) : ∃ a b c, v = .cytoband a b c := by
  unfold createCytoBandPosition at h
  iterate 4 (all_goals (try split at h))
  all_goals (first | cases h | exact cytoMinor_shape _ _ _ _ h)

/-- CDS-like parses trivially satisfy the protein refAA invariant. -/
theorem parseCdsLike_refAA (pf : PFX) (s : String) (v : Position)
    (h : parseCdsLike pf s = .ok v) : refAASingle v := by
  unfold parseCdsLike at h
  split at h
  · cases h
  · obtain ⟨x, y, hv⟩ := createCdsLikePosition_shape _ _ _ _ h
    rw [hv]
    exact trivial

/-- Every position accepted by `parsePosition` satisfies `refAASingle`: a
protein refAA is absent, `null`, or a single character (the 1-letter table
value for a 3-letter match, which may be lower-case). -/
theorem parsePosition_refAASingle (pf : PFX) (s : String) (v : Position)
    (h : parsePosition pf s = .ok v) : refAASingle v := by
  unfold parsePosition at h
  split at h
  · rename_i w hw
    cases h
    cases pf
    case p =>
      unfold parsePositionRaw at hw
      dsimp only [] at hw
      split at hw
      · cases hw
      · rename_i og pos hm
        apply createProteinPosition_refAASingle _ _ _ hw
        cases og with
        | none => exact Or.inl rfl
        | some g =>
          refine Or.inr (Or.inr ⟨g, rfl, ?_⟩)
          obtain ⟨a, ha, r, hstrip⟩ := proteinMatchGo_refAA aaAlts s.data g pos hm
          have hlow := ciStrip_lower a.data s.data g.data r hstrip
          rcases aaAlts_classify a ha with h1 | ⟨h3, hlowa, hkey⟩
          · left
            have hlen : g.data.length = a.data.length := by
              have h2 := congrArg List.length hlow
              simpa using h2
            rw [hlen]
            exact h1
          · right
            have hlg : lowerStr g = lowerStr a := congrArg String.mk hlow
            obtain ⟨code, hc, hclen⟩ := aaKey_lookup a hkey
            refine ⟨code, ?_, hclen⟩
            rw [hlg, hlowa]
            exact hc
    case y =>
      unfold parsePositionRaw at hw
      dsimp only [] at hw
      split at hw
      · cases hw
      · obtain ⟨a, b, c, hv⟩ := createCytoBandPosition_shape _ _ _ _ hw
        rw [hv]
        exact trivial
    case c => exact parseCdsLike_refAA _ _ _ hw
    case n => exact parseCdsLike_refAA _ _ _ hw
    case r => exact parseCdsLike_refAA _ _ _ hw
    case g =>
      obtain ⟨x, hv⟩ := createBasicPosition_shape _ _ _ _ hw
      rw [hv]
      exact trivial
    case e =>
      obtain ⟨x, hv⟩ := createBasicPosition_shape _ _ _ _ hw
      rw [hv]
      exact trivial
    case i =>
      obtain ⟨x, hv⟩ := createBasicPosition_shape _ _ _ _ hw
      rw [hv]
      exact trivial
  · cases h

/-- Reading an invariant-satisfying position back as a raw record gives a
refAA field fit for re-creation. -/
theorem posToInput_refOK (p : Position) (h : refAASingle p) :
    inputRefOK (posToInput p) := by
  cases p with
  | basic pf pos => exact Or.inl rfl
  | cdsLike pf pos off => exact Or.inl rfl
  | cytoband a b c => exact Or.inl rfl
  | protein pos r l =>
    rcases h with h | h | ⟨t, ht, hlen⟩
    · subst h
      exact Or.inl rfl
    · subst h
      exact Or.inr (Or.inl rfl)
    · subst ht
      exact Or.inr (Or.inr ⟨t, rfl, hlen⟩)

/-- `createPosition` restores the upper-case refAA invariant from any raw
record whose refAA is absent, `null`, or a single character. -/
theorem createPosition_refAAUpper (opf : Option PFX) (inp : PosInput) (v : Position)
    (h : createPosition opf inp = .ok v) (hin : inputRefOK inp) : refAAUpper v := by
  match opf with
  | none => cases h
  | some .p => exact createProteinPosition_refAAUpper _ _ _ h hin
  | some .y =>
    obtain ⟨a, b, c, hv⟩ := createCytoBandPosition_shape _ _ _ _ h
    rw [hv]
    exact trivial
  | some .c =>
    obtain ⟨x, y, hv⟩ := createCdsLikePosition_shape _ _ _ _ h
    rw [hv]
    exact trivial
  | some .n =>
    obtain ⟨x, y, hv⟩ := createCdsLikePosition_shape _ _ _ _ h
    rw [hv]
    exact trivial
  | some .r =>
    obtain ⟨x, y, hv⟩ := createCdsLikePosition_shape _ _ _ _ h
    rw [hv]
    exact trivial
  | some .g =>
    obtain ⟨x, hv⟩ := createBasicPosition_shape _ _ _ _ h
    rw [hv]
    exact trivial
  | some .e =>
    obtain ⟨x, hv⟩ := createBasicPosition_shape _ _ _ _ h
    rw [hv]
    exact trivial
  | some .i =>
    obtain ⟨x, hv⟩ := createBasicPosition_shape _ _ _ _ h
    rw [hv]
    exact trivial

/-- The `formatPosition` closure keeps the upper-case invariant for optional
positions. -/
theorem formatPos_refAA (vpfx : Option PFX) (o : Option PosInput) (ob : Option Position)
    (h : formatPos vpfx o = .ok ob) (hin : inputRefOKO o) : refAAUpperO ob := by
  cases o with
  | none =>
    cases h
    exact trivial
  | some inp =>
    unfold formatPos at h
    dsimp only [] at h
    split at h
    · cases h
    · cases h
      exact createPosition_refAAUpper _ _ _ (by assumption) hin

/-- `createVariantNotation` re-casts every supplied position through
`createPosition`, so the assembled record satisfies the upper-case refAA
invariant whenever every raw refAA input is absent, `null`, or a single
character. -/
theorem createVariant_refAA (args : VariantInput) (v : Variant)
    (h : createVariant args = .ok v)
    (h1 : inputRefOKO args.break1Start)
    (h1e : inputRefOKO args.break1End)
    (h2 : inputRefOKO args.break2Start)
    (h2e : inputRefOKO args.break2End) :
    refAAUpper v.break1Start ∧ refAAUpperO v.break1End
      ∧ refAAUpperO v.break2Start ∧ refAAUpperO v.break2End := by
  rcases hbs : args.break1Start with _ | b1in <;> simp only [createVariant, hbs] at h
  · cases h
  · rw [hbs] at h1
    iterate 9 (all_goals (try split at h))
    all_goals (try cases h)
    all_goals
      exact ⟨createPosition_refAAUpper _ _ _ (by assumption) h1,
        formatPos_refAA _ _ _ (by assumption) h1e,
        formatPos_refAA _ _ _ (by assumption) h2,
        formatPos_refAA _ _ _ (by assumption) h2e⟩

/-- The c/n/r case of `extractPositions` satisfies the parse invariant. -/
theorem extractCds_refAA (pf : PFX) (s : List Char)
    (out : List Char × Position × Option Position)
    (h : extractCds pf s = .ok out) : refAASingle out.2.1 ∧ refAASingleO out.2.2 := by
  unfold extractCds at h
  dsimp only [] at h
  split at h
  · cases h
  · cases h
    exact ⟨parsePosition_refAASingle _ _ _ (by assumption), trivial⟩

/-- The g/e/i case of `extractPositions` satisfies the parse invariant. -/
theorem extractBasic_refAA (pf : PFX) (s : List Char)
    (out : List Char × Position × Option Position)
    (h : extractBasic pf s = .ok out) : refAASingle out.2.1 ∧ refAASingleO out.2.2 := by
  unfold extractBasic at h
  split at h
  · cases h
  · split at h
    · cases h
    · cases h
      exact ⟨parsePosition_refAASingle _ _ _ (by assumption), trivial⟩

/-- Both positions extracted for one breakpoint satisfy the parse
invariant. -/
theorem extractPositions_refAA (pf : PFX) (s : List Char)
    (out : List Char × Position × Option Position)
    (h : extractPositions pf s = .ok out) :
    refAASingle out.2.1 ∧ refAASingleO out.2.2 := by
  unfold extractPositions at h
  split at h
  · iterate 4 (all_goals (try split at h))
    all_goals (cases h)
    all_goals refine ⟨parsePosition_refAASingle _ _ _ (by assumption), ?_⟩
    all_goals exact parsePosition_refAASingle _ _ _ (by assumption)
  · split at h
    all_goals (iterate 2 (all_goals (try split at h)))
    all_goals (try (exact extractCds_refAA _ _ _ h))
    all_goals (try (exact extractBasic_refAA _ _ _ h))
    all_goals (cases h)
    all_goals exact ⟨parsePosition_refAASingle _ _ _ (by assumption), trivial⟩

/-- `contFinish` copies the breakpoints it is given into the result
record. -/
theorem contFinish_breaks (pf : PFX) (b1s : Position) (b1e : Option Position)
    (b2 : Option (Position × Option Position)) (tail : List Char) (r : ContResult)
    (h : contFinish pf b1s b1e b2 tail = .ok r) :
    r.break1Start = b1s ∧ r.break1End = b1e
      ∧ r.break2Start = b2.map (fun x => x.1)
      ∧ r.break2End = b2.bind (fun x => x.2) := by
  unfold contFinish at h
  iterate 8 (all_goals (try split at h))
  all_goals (try cases h)
  all_goals exact ⟨rfl, rfl, rfl, rfl⟩

/-- Every breakpoint of an accepted continuous parse satisfies the parse
invariant. -/
theorem parseContinuous_refAA (s : String) (c : ContResult)
    (h : parseContinuous s = .ok c) :
    refAASingle c.break1Start ∧ refAASingleO c.break1End
      ∧ refAASingleO c.break2Start ∧ refAASingleO c.break2End := by
  unfold parseContinuous at h
  dsimp only [] at h
  split at h
  · cases h
  split at h
  · cases h
  rename_i pf hpf
  split at h
  · cases h
  rename_i inp1 b1s b1e hex1
  split at h
  · rename_i r3 hr3
    split at h
    · cases h
    rename_i inp2 b2s b2e hex2
    obtain ⟨k1, k1e, k2, k2e⟩ := contFinish_breaks _ _ _ _ _ _ h
    obtain ⟨e1, e1e⟩ := extractPositions_refAA _ _ _ hex1
    obtain ⟨e2, e2e⟩ := extractPositions_refAA _ _ _ hex2
    rw [k1, k1e, k2, k2e]
    exact ⟨e1, e1e, e2, e2e⟩
  · obtain ⟨k1, k1e, k2, k2e⟩ := contFinish_breaks _ _ _ _ _ _ h
    obtain ⟨e1, e1e⟩ := extractPositions_refAA _ _ _ hex1
    rw [k1, k1e, k2, k2e]
    exact ⟨e1, e1e, trivial, trivial⟩

/-- A legacy multi-feature breakpoint (possibly an underscore range)
satisfies the parse invariant. -/
theorem parseBreakMF_refAA (p : List Char) (out : PFX × Position × Option Position)
    (h : parseBreakMF p = .ok out) :
    refAASingle out.2.1 ∧ refAASingleO out.2.2 := by
  unfold parseBreakMF at h
  split at h
  · cases h
  dsimp only [] at h
  split at h
  · iterate 2 (all_goals (try split at h))
    all_goals (cases h)
    all_goals refine ⟨parsePosition_refAASingle _ _ _ (by assumption), ?_⟩
    all_goals exact parsePosition_refAASingle _ _ _ (by assumption)
  · split at h
    · cases h
    · cases h
      exact ⟨parsePosition_refAASingle _ _ _ (by assumption), trivial⟩

/-- Every breakpoint of an accepted legacy multi-feature parse satisfies the
parse invariant. -/
theorem parseMultiFeature_refAA (s : String) (mf : MFResult)
    (h : parseMultiFeature s = .ok mf) :
    refAASingle mf.break1Start ∧ refAASingleO mf.break1End
      ∧ refAASingle mf.break2Start ∧ refAASingleO mf.break2End := by
  unfold parseMultiFeature at h
  dsimp only [] at h
  iterate 7 (all_goals (try split at h))
  all_goals (try cases h)
  all_goals (try (split at h <;> cases h))
  split at h
  · cases h
  rename_i pf1 b1s b1e hq1
  split at h
  · cases h
  rename_i pf2 b2s b2e hq2
  cases h
  obtain ⟨m1, m1e⟩ := parseBreakMF_refAA _ _ hq1
  obtain ⟨m2, m2e⟩ := parseBreakMF_refAA _ _ hq2
  exact ⟨m1, m1e, m2, m2e⟩

/-- Both range positions of a fusion side satisfy the parse invariant. -/
theorem fusionPartBody_refAA (feature : String) (v : List Char) (part : FusionPart)
    (h : fusionPartBody feature v = .ok part) :
    refAASingle part.break1Start ∧ refAASingle part.break1End := by
  unfold fusionPartBody at h
  iterate 4 (all_goals (try split at h))
  all_goals (cases h)
  exact ⟨parsePosition_refAASingle _ _ _ (by assumption),
    parsePosition_refAASingle _ _ _ (by assumption)⟩

/-- Both range positions of a parsed fusion side satisfy the parse
invariant. -/
theorem parseFusionPart_refAA (s : String) (req : Bool) (part : FusionPart)
    (h : parseFusionPart s req = .ok part) :
    refAASingle part.break1Start ∧ refAASingle part.break1End := by
  unfold parseFusionPart at h
  iterate 2 (all_goals (try split at h))
  all_goals (first
    | cases h
    | exact fusionPartBody_refAA _ _ _ h)

/-- Lifting `posToInput` over an optional parsed position keeps the input
constraint. -/
theorem inputRefOKO_map (o : Option Position) (h : refAASingleO o) :
    inputRefOKO (o.map posToInput) := by
  cases o with
  | none => exact trivial
  | some p => exact posToInput_refOK p h

/-- Every variant assembled through the new fusion nomenclature satisfies
the upper-case refAA invariant. -/
theorem parseFusion_refAA (s : String) (req : Bool) (v : Variant)
    (h : parseFusion s req = .ok v) :
    refAAUpper v.break1Start ∧ refAAUpperO v.break1End
      ∧ refAAUpperO v.break2Start ∧ refAAUpperO v.break2End := by
  unfold parseFusion at h
  dsimp only [] at h
  split at h
  · cases h
  split at h
  · cases h
  rename_i unt usize hins
  split at h
  · cases h
  rename_i t1 ht1
  split at h
  · cases h
  rename_i t2 ht2
  obtain ⟨p11, p12⟩ := parseFusionPart_refAA _ _ _ ht1
  obtain ⟨p21, p22⟩ := parseFusionPart_refAA _ _ _ ht2
  exact createVariant_refAA _ _ h
    (posToInput_refOK _ p11) (posToInput_refOK _ p12)
    (posToInput_refOK _ p21) (posToInput_refOK _ p22)

/-- Every variant assembled through the continuous or legacy multi-feature
path satisfies the upper-case refAA invariant. -/
theorem parseVariantBody_refAA (fs : JOpt String) (vs : String) (req : Bool) (v : Variant)
    (h : parseVariantBody fs vs req = .ok v) :
    refAAUpper v.break1Start ∧ refAAUpperO v.break1End
      ∧ refAAUpperO v.break2Start ∧ refAAUpperO v.break2End := by
  unfold parseVariantBody at h
  dsimp only [] at h
  split at h
  · split at h
    · cases h
    rename_i r1 r2 hr12
    split at h
    · cases h
    rename_i mfv hmf
    obtain ⟨q1, q1e, q2, q2e⟩ := parseMultiFeature_refAA _ _ hmf
    exact createVariant_refAA _ _ h (posToInput_refOK _ q1)
      (inputRefOKO_map _ q1e) (posToInput_refOK _ q2) (inputRefOKO_map _ q2e)
  · split at h
    · cases h
    rename_i cr hc
    obtain ⟨k1, k1e, k2, k2e⟩ := parseContinuous_refAA _ _ hc
    exact createVariant_refAA _ _ h (posToInput_refOK _ k1)
      (inputRefOKO_map _ k1e) (inputRefOKO_map _ k2) (inputRefOKO_map _ k2e)

/-- Every variant returned by `parseVariant` satisfies the upper-case refAA
invariant. -/
theorem parseVariant_refAA (s : String) (req : Bool) (v : Variant)
    (h : parseVariant s req = .ok v) :
    refAAUpper v.break1Start ∧ refAAUpperO v.break1End
      ∧ refAAUpperO v.break2Start ∧ refAAUpperO v.break2End := by
  unfold parseVariant at h
  split at h
  · cases h
  split at h
  · exact parseFusion_refAA _ _ _ h
  split at h
  · split at h
    · cases h
    · exact parseVariantBody_refAA _ _ _ _ h
  · exact parseVariantBody_refAA _ _ _ _ h
  · cases h

/-- C10 counterexample: `createVariantNotation` called directly with a raw
3-letter refAA (`Arg`) stores the lower-case 1-letter table value `r` (and
renders `p.r10`), because `createProteinPosition` only upper-cases when the
3-letter lookup misses; so not every record returned by
`createVariantNotation` has an upper-case refAA. -/
theorem c10_three_letter_not_upper :
    (createVariant threeLetterArgs).map (fun v => v.break1Start)
      = .ok (.protein (some 10) (.val "r") (.val "Arg"))
    ∧ ¬ refAAUpper (.protein (some 10) (.val "r") (.val "Arg")) := by
  refine ⟨rfl, ?_⟩
  intro hcl
  rcases hcl with h | h | ⟨t, ht, hlen, hup⟩
  · cases h
  · cases h
  · cases ht
    exact absurd hup (by decide)

/-- C10 (amended): every variant record returned by `parseVariant` has, in
each of its four breakpoint positions, a protein refAA that is `null`,
absent, or a single character fixed by upper-casing — the raw parse stores a
single character (for a 3-letter code, the lower-case 1-letter table value)
and `createVariantNotation` re-runs each position through `createPosition`,
which upper-cases any single-character refAA; `createVariantNotation` itself
guarantees the invariant only when every raw refAA input is already absent,
`null`, or a single character (a direct 3-letter input stays
lower-case). -/
theorem c10_refaa_upper :
    (∀ (s : String) (req : Bool) (v : Variant),
        parseVariant s req = .ok v →
        refAAUpper v.break1Start ∧ refAAUpperO v.break1End
          ∧ refAAUpperO v.break2Start ∧ refAAUpperO v.break2End)
    ∧ (∀ (args : VariantInput) (v : Variant),
        createVariant args = .ok v →
        inputRefOKO args.break1Start → inputRefOKO args.break1End →
        inputRefOKO args.break2Start → inputRefOKO args.break2End →
        refAAUpper v.break1Start ∧ refAAUpperO v.break1End
          ∧ refAAUpperO v.break2Start ∧ refAAUpperO v.break2End) :=
  ⟨parseVariant_refAA,
   fun args v h h1 h1e h2 h2e => createVariant_refAA args v h h1 h1e h2 h2e⟩

/-- Witness: `c10_refaa_upper` applied to the parsed record of
`FEATURE:p.Gly12del` (a 3-letter spelling that ends upper-case
1-letter). -/
theorem c10_refaa_upper_witness :
    parseVariant "FEATURE:p.Gly12del" true = .ok c10Example
    ∧ (refAAUpper c10Example.break1Start ∧ refAAUpperO c10Example.break1End
        ∧ refAAUpperO c10Example.break2Start ∧ refAAUpperO c10Example.break2End) :=
  ⟨rfl, c10_refaa_upper.1 "FEATURE:p.Gly12del" true c10Example rfl⟩

end GkbParser
